import Mathlib

/-!
Verification of the hillside repository's simulation engines.

This file gives a shallow embedding of the abelian-sandpile engine
(`SandpileSimulation` / `SandpileCell`) and of the dual Life/Lenia engine
(`CloudsSimulation`), and proves or refutes the frozen claims about them.

Conventions of the embedding:
* JS numbers holding grain counts are modelled as `ℤ` (they are integers in
  the source; `ℤ` also keeps the additive structure of JS arithmetic).
* Grid coordinates are `ℤ × ℤ` pairs `(x, y)`; the grid itself is a total
  function `ℤ → ℤ → ℤ` together with the `gridWidth`/`gridHeight` bounds,
  mirroring the `grid[y][x]` arrays.  Out-of-grid entries are never read or
  written by the embedded operations (every access in the source is guarded
  by `isValidGridPosition`).
* Purely visual state (cell colors, topple animations, avalanche particles,
  `avalancheIntensity`, screen shake) is omitted: it never feeds back into
  grain counts.
* `Math.random()` draws are passed in as explicit parameters.
-/

namespace Hillside

/-- State of `SandpileSimulation` that is relevant to the grain dynamics:
grid dimensions (`this.gridWidth`, `this.gridHeight`) and the grain count of
every cell (`this.grid[y][x].grains`). -/
structure SandGrid where
  gridWidth : ℕ
  gridHeight : ℕ
  grains : ℤ → ℤ → ℤ

/-- `this.maxTopplesPerFrame = 50`, set in the constructor and never
reassigned. -/
def maxTopplesPerFrame : ℕ := 50

/-- `SandpileSimulation.isValidGridPosition(x, y)`:
`x >= 0 && x < this.gridWidth && y >= 0 && y < this.gridHeight`. -/
def isValidGridPosition (s : SandGrid) (x y : ℤ) : Prop :=
  0 ≤ x ∧ x < (s.gridWidth : ℤ) ∧ 0 ≤ y ∧ y < (s.gridHeight : ℤ)

instance (s : SandGrid) (x y : ℤ) : Decidable (isValidGridPosition s x y) :=
  inferInstanceAs (Decidable (_ ∧ _ ∧ _ ∧ _))

/-- `SandpileCell.getNeighborPositions()`: left, right, up, down. -/
def neighborPositions (p : ℤ × ℤ) : List (ℤ × ℤ) :=
  [(p.1 - 1, p.2), (p.1 + 1, p.2), (p.1, p.2 - 1), (p.1, p.2 + 1)]

/-- `SandpileCell.addGrains(count)` at cell `p` (the caller checks validity). -/
def addGrains (s : SandGrid) (p : ℤ × ℤ) (count : ℤ) : SandGrid :=
  { s with grains := fun x y => if (x, y) = p then s.grains x y + count else s.grains x y }

@[simp] lemma addGrains_gridWidth (s : SandGrid) (p : ℤ × ℤ) (c : ℤ) :
    (addGrains s p c).gridWidth = s.gridWidth := rfl

@[simp] lemma addGrains_gridHeight (s : SandGrid) (p : ℤ × ℤ) (c : ℤ) :
    (addGrains s p c).gridHeight = s.gridHeight := rfl

/-- `SandpileCell.isUnstable()`: `this.grains >= 4`. -/
def cellUnstable (s : SandGrid) (p : ℤ × ℤ) : Prop :=
  4 ≤ s.grains p.1 p.2

instance (s : SandGrid) (p : ℤ × ℤ) : Decidable (cellUnstable s p) :=
  inferInstanceAs (Decidable (_ ≤ _))

/-- `SandpileCell.topple()` followed by the neighbor distribution performed in
`SandpileSimulation.processToppling`: if the cell is unstable it loses
`Math.floor(this.grains / 4) * 4` grains and each valid neighbor receives
`grainsPerNeighbor = Math.floor(this.grains / 4)` via `addGrains`. -/
def toppleCellAt (s : SandGrid) (p : ℤ × ℤ) : SandGrid :=
  if 4 ≤ s.grains p.1 p.2 then
    let k := s.grains p.1 p.2 / 4
    let s1 : SandGrid :=
      { s with grains := fun x y => if (x, y) = p then s.grains x y - 4 * k else s.grains x y }
    (neighborPositions p).foldl
      (fun t q => if isValidGridPosition t q.1 q.2 then addGrains t q k else t) s1
  else s

/-- The scan at the top of `SandpileSimulation.processToppling`: all unstable
cells, collected row-major (`y` outer, `x` inner). -/
def unstableCells (s : SandGrid) : List (ℤ × ℤ) :=
  (List.range s.gridHeight).flatMap fun (y : ℕ) =>
    (List.range s.gridWidth).filterMap fun (x : ℕ) =>
      if 4 ≤ s.grains ((x : ℕ) : ℤ) ((y : ℕ) : ℤ) then
        some (((x : ℕ) : ℤ), ((y : ℕ) : ℤ))
      else none

/-- Number of the 4 neighbor positions of `p` falling outside the grid
(grains sent there by a topple are silently dropped). -/
def invalidNeighborCount (s : SandGrid) (p : ℤ × ℤ) : ℕ :=
  ((neighborPositions p).filter fun q => !(decide (isValidGridPosition s q.1 q.2))).length

/-- Accumulator of one `processToppling` pass: the evolving grid and
`topplesThisFrame`, plus two ghost observers used only in the statements of
theorems: `lost` counts grains discarded off-grid and `boundaryTopples`
counts executed topples that had at least one missing neighbor. -/
structure WaveResult where
  state : SandGrid
  topples : ℕ
  lost : ℤ
  boundaryTopples : ℕ

/-- Body of the `newTopples.forEach` loop in
`SandpileSimulation.processToppling`: skip once `topplesThisFrame`
reached `maxTopplesPerFrame`; otherwise `cell.topple()` — which does nothing
unless the cell is (still) unstable — distributes to the valid neighbors and
increments `topplesThisFrame`. -/
def waveStep (w : WaveResult) (p : ℤ × ℤ) : WaveResult :=
  if maxTopplesPerFrame ≤ w.topples then w
  else if 4 ≤ w.state.grains p.1 p.2 then
    { state := toppleCellAt w.state p
      topples := w.topples + 1
      lost := w.lost + (w.state.grains p.1 p.2 / 4) * (invalidNeighborCount w.state p : ℤ)
      boundaryTopples :=
        w.boundaryTopples + (if invalidNeighborCount w.state p = 0 then 0 else 1) }
  else w

/-- `SandpileSimulation.processToppling()`: one toppling wave over the
snapshot of unstable cells, with the per-wave cap.  The return value of the
source method is `topplesThisFrame > 0`, available as `.topples`. -/
def processTopplingFull (s : SandGrid) : WaveResult :=
  (unstableCells s).foldl waveStep ⟨s, 0, 0, 0⟩

/-- The toppling loop of `SandpileSimulation.draw()`:
`while (stillToppling && safetyCounter < 10)`, with `fuel` the number of wave
slots remaining.  Returns the final grid and the final value of
`stillToppling` (`false` exactly when the last wave toppled nothing). -/
def toppleLoop : ℕ → SandGrid → SandGrid × Bool
  | 0, s => (s, true)
  | n + 1, s =>
    let w := processTopplingFull s
    if 0 < w.topples then toppleLoop n w.state else (w.state, false)

/-- Total number of grains on the grid. -/
def gridSum (s : SandGrid) : ℤ :=
  ∑ y ∈ Finset.range s.gridHeight, ∑ x ∈ Finset.range s.gridWidth, s.grains (x : ℤ) (y : ℤ)

section UnstableCellsLemmas

lemma mem_unstableCells {s : SandGrid} {p : ℤ × ℤ} :
    p ∈ unstableCells s ↔ isValidGridPosition s p.1 p.2 ∧ 4 ≤ s.grains p.1 p.2 := by
  obtain ⟨px, py⟩ := p
  show _ ∈ unstableCells s ↔ isValidGridPosition s px py ∧ 4 ≤ s.grains px py
  unfold unstableCells
  constructor
  · intro hmem
    obtain ⟨y, hy, hrest⟩ := List.mem_flatMap.1 hmem
    obtain ⟨x, hx, hsome⟩ := List.mem_filterMap.1 hrest
    rw [List.mem_range] at hy hx
    by_cases hg : 4 ≤ s.grains (x : ℤ) (y : ℤ)
    · rw [if_pos hg] at hsome
      have hpair := Option.some.inj hsome
      have hxx : (x : ℤ) = px := congrArg Prod.fst hpair
      have hyy : (y : ℤ) = py := congrArg Prod.snd hpair
      rw [← hxx, ← hyy]
      exact ⟨⟨Int.natCast_nonneg x, by exact_mod_cast hx,
        Int.natCast_nonneg y, by exact_mod_cast hy⟩, hg⟩
    · rw [if_neg hg] at hsome
      exact absurd hsome (by simp)
  · rintro ⟨⟨hx0, hxW, hy0, hyH⟩, hg⟩
    apply List.mem_flatMap.2
    refine ⟨py.toNat, List.mem_range.2 (by omega), ?_⟩
    apply List.mem_filterMap.2
    refine ⟨px.toNat, List.mem_range.2 (by omega), ?_⟩
    rw [Int.toNat_of_nonneg hx0, Int.toNat_of_nonneg hy0, if_pos hg]

lemma unstableCells_eq_nil_iff {s : SandGrid} :
    unstableCells s = [] ↔
      ∀ x y : ℤ, isValidGridPosition s x y → s.grains x y ≤ 3 := by
  rw [List.eq_nil_iff_forall_not_mem]
  constructor
  · intro h x y hv
    by_contra hgt
    apply h (x, y)
    apply mem_unstableCells.2
    refine ⟨hv, ?_⟩
    show 4 ≤ s.grains x y
    omega
  · rintro h ⟨x, y⟩ hmem
    obtain ⟨hv, hg⟩ := mem_unstableCells.1 hmem
    have hg' : 4 ≤ s.grains x y := hg
    have := h x y hv
    omega

end UnstableCellsLemmas

section WaveLemmas

lemma waveStep_topples_mono (w : WaveResult) (p : ℤ × ℤ) :
    w.topples ≤ (waveStep w p).topples := by
  unfold waveStep
  split
  · exact le_rfl
  · split
    · show w.topples ≤ w.topples + 1
      omega
    · exact le_rfl

lemma foldl_waveStep_topples_mono (l : List (ℤ × ℤ)) (w : WaveResult) :
    w.topples ≤ (l.foldl waveStep w).topples := by
  induction l generalizing w with
  | nil => exact le_rfl
  | cons p l ih =>
    exact le_trans (waveStep_topples_mono w p) (ih (waveStep w p))

lemma waveStep_eq_of_topples_eq {w : WaveResult} {p : ℤ × ℤ}
    (h : (waveStep w p).topples = w.topples) : waveStep w p = w := by
  unfold waveStep at h ⊢
  split at h
  · split
    · rfl
    · omega
  · rename_i hcap
    split at h
    · rename_i hg
      exfalso
      have h' : w.topples + 1 = w.topples := h
      omega
    · rename_i hg
      rw [if_neg hcap, if_neg hg]

lemma foldl_waveStep_eq_of_topples_eq {l : List (ℤ × ℤ)} {w : WaveResult}
    (h : (l.foldl waveStep w).topples = w.topples) : l.foldl waveStep w = w := by
  induction l generalizing w with
  | nil => rfl
  | cons p l ih =>
    rw [List.foldl_cons] at h ⊢
    have h1 : w.topples ≤ (waveStep w p).topples := waveStep_topples_mono w p
    have h2 : (waveStep w p).topples ≤ (l.foldl waveStep (waveStep w p)).topples :=
      foldl_waveStep_topples_mono l (waveStep w p)
    have hstep : (waveStep w p).topples = w.topples := by omega
    rw [waveStep_eq_of_topples_eq hstep] at h ⊢
    exact ih h

/-- A wave that reports no topples left the grid untouched. -/
lemma processTopplingFull_state_of_topples_zero {s : SandGrid}
    (h : (processTopplingFull s).topples = 0) : (processTopplingFull s).state = s := by
  have := foldl_waveStep_eq_of_topples_eq (l := unstableCells s) (w := ⟨s, 0, 0, 0⟩) h
  unfold processTopplingFull
  rw [this]

/-- A wave that reports no topples found no unstable cell: the snapshot was
empty.  (If the snapshot were nonempty, its first cell — untouched so far and
under the cap since `topplesThisFrame = 0` — would have toppled.) -/
lemma unstableCells_eq_nil_of_topples_zero {s : SandGrid}
    (h : (processTopplingFull s).topples = 0) : unstableCells s = [] := by
  unfold processTopplingFull at h
  cases hl : unstableCells s with
  | nil => rfl
  | cons p l =>
    exfalso
    rw [hl, List.foldl_cons] at h
    have hp : 4 ≤ s.grains p.1 p.2 := by
      have hmem : p ∈ unstableCells s := by rw [hl]; exact List.mem_cons_self ..
      exact (mem_unstableCells.1 hmem).2
    have hs : (waveStep ⟨s, 0, 0, 0⟩ p).topples = 1 := by
      unfold waveStep
      rw [if_neg (by simp [maxTopplesPerFrame]), if_pos hp]
    have := foldl_waveStep_topples_mono l (waveStep ⟨s, 0, 0, 0⟩ p)
    omega

end WaveLemmas

/-- C1.  In `SandpileSimulation.draw()`, if the toppling loop exits because a
`processToppling` pass reported no topple (the returned `stillToppling` flag
is `false`, rather than the 10-wave safety cap firing), then every cell of
the resulting grid holds at most 3 grains.  (The claim's further proviso that
no wave was truncated at 50 topples is not even needed: a pass reports no
topple only when its snapshot of unstable cells was empty.) -/
theorem sandpile_stable_after_clean_exit (s : SandGrid)
    (h : (toppleLoop 10 s).2 = false) :
    ∀ x y : ℤ, isValidGridPosition (toppleLoop 10 s).1 x y →
      (toppleLoop 10 s).1.grains x y ≤ 3 := by
  suffices H : ∀ (n : ℕ) (t : SandGrid), (toppleLoop n t).2 = false →
      ∀ x y : ℤ, isValidGridPosition (toppleLoop n t).1 x y →
        (toppleLoop n t).1.grains x y ≤ 3 from H 10 s h
  intro n
  induction n with
  | zero => intro t h; simp [toppleLoop] at h
  | succ n ih =>
    intro t h
    simp only [toppleLoop] at h ⊢
    by_cases hc : 0 < (processTopplingFull t).topples
    · rw [if_pos hc] at h ⊢
      exact ih _ h
    · rw [if_neg hc] at h ⊢
      have hz : (processTopplingFull t).topples = 0 := by omega
      have hstate := processTopplingFull_state_of_topples_zero hz
      have hnil := unstableCells_eq_nil_of_topples_zero hz
      intro x y hv
      have hv' : isValidGridPosition (processTopplingFull t).state x y := hv
      rw [hstate] at hv'
      show (processTopplingFull t).state.grains x y ≤ 3
      rw [hstate]
      exact (unstableCells_eq_nil_iff.1 hnil) x y hv'

/-- Witness for C1: a concrete 2×2 grid holding a single grain exits the
draw-loop with `stillToppling = false` and its cells indeed all hold ≤ 3. -/
def witnessGrid1 : SandGrid :=
  { gridWidth := 2, gridHeight := 2
    grains := fun x y => if x = 0 ∧ y = 0 then 1 else 0 }

theorem sandpile_stable_after_clean_exit_witness :
    (toppleLoop 10 witnessGrid1).2 = false ∧
      (toppleLoop 10 witnessGrid1).1.grains 0 0 ≤ 3 :=
  ⟨by decide, sandpile_stable_after_clean_exit witnessGrid1 (by decide) 0 0 (by decide)⟩

/-! ### Claim C2: the 5×5 single-pile scenario -/

/-- Scenario of claim C2: a 5×5 grid, all cells at 0 grains except cell
`(2,2)` at 8 grains, no audio and no grain injection. -/
def scenarioGrid : SandGrid :=
  { gridWidth := 5, gridHeight := 5
    grains := fun x y => if x = 2 ∧ y = 2 then 8 else 0 }

/-- The scenario grid after the draw-loop runs toppling to stabilization. -/
def scenarioStabilized : SandGrid := (toppleLoop 10 scenarioGrid).1

/-- C2, counterexample.  The claim's expected outcome — each orthogonal
neighbor of `(2,2)` holding exactly 1 grain — is false on the code:
`SandpileCell.topple()` distributes `Math.floor(8 / 4) = 2` grains to each
neighbor in a single topple. -/
theorem scenario_neighbors_one_refuted :
    ¬(scenarioStabilized.grains 2 2 = 0 ∧
      scenarioStabilized.grains 1 2 = 1 ∧ scenarioStabilized.grains 3 2 = 1 ∧
      scenarioStabilized.grains 2 1 = 1 ∧ scenarioStabilized.grains 2 3 = 1) := by
  decide

/-- C2, amended.  Stabilizing the scenario grid leaves cell `(2,2)` with 0
grains and each of its 4 orthogonal neighbors with exactly 2 grains; the
first wave performs a single topple and the second wave finds nothing to
topple (no cascading beyond the first wave), so the loop exits cleanly. -/
theorem scenario_stabilized_spec :
    scenarioStabilized.grains 2 2 = 0 ∧
    scenarioStabilized.grains 1 2 = 2 ∧ scenarioStabilized.grains 3 2 = 2 ∧
    scenarioStabilized.grains 2 1 = 2 ∧ scenarioStabilized.grains 2 3 = 2 ∧
    scenarioStabilized.grains 0 0 = 0 ∧ scenarioStabilized.grains 1 1 = 0 ∧
    (processTopplingFull scenarioGrid).topples = 1 ∧
    (processTopplingFull (processTopplingFull scenarioGrid).state).topples = 0 ∧
    (toppleLoop 10 scenarioGrid).2 = false := by
  decide

/-! ### Claim C3: grain conservation of a toppling wave -/

lemma pointUpdate_eq (s : SandGrid) (p : ℤ × ℤ) (F : ℤ → ℤ) :
    (fun x y => if (x, y) = p then F (s.grains x y) else s.grains x y)
      = fun x y => if (x, y) = p then F (s.grains p.1 p.2) else s.grains x y := by
  funext x y
  by_cases h : (x, y) = p
  · rw [if_pos h, if_pos h, show x = p.1 from congrArg Prod.fst h,
      show y = p.2 from congrArg Prod.snd h]
  · rw [if_neg h, if_neg h]

lemma sum_indicator_point {W H : ℕ} {px py : ℤ} (c : ℤ)
    (h1 : 0 ≤ px) (h2 : px < (W : ℤ)) (h3 : 0 ≤ py) (h4 : py < (H : ℤ)) :
    (∑ y ∈ Finset.range H, ∑ x ∈ Finset.range W,
        if (((x : ℕ) : ℤ), ((y : ℕ) : ℤ)) = (px, py) then c else 0) = c := by
  obtain ⟨a, rfl⟩ := Int.eq_ofNat_of_zero_le h1
  obtain ⟨b, rfl⟩ := Int.eq_ofNat_of_zero_le h3
  have ha : a < W := by exact_mod_cast h2
  have hb : b < H := by exact_mod_cast h4
  have hinner : ∀ y ∈ Finset.range H,
      (∑ x ∈ Finset.range W,
          if (((x : ℕ) : ℤ), ((y : ℕ) : ℤ)) = (((a : ℕ) : ℤ), ((b : ℕ) : ℤ)) then c else 0)
        = if y = b then c else 0 := by
    intro y _
    by_cases hy : y = b
    · rw [if_pos hy]
      have hcongr : ∀ x ∈ Finset.range W,
          (if (((x : ℕ) : ℤ), ((y : ℕ) : ℤ)) = (((a : ℕ) : ℤ), ((b : ℕ) : ℤ)) then c else 0)
            = if x = a then c else 0 := by
        intro x _
        subst hy
        simp [Prod.ext_iff]
      rw [Finset.sum_congr rfl hcongr, Finset.sum_ite_eq' (Finset.range W) a fun _ => c,
        if_pos (Finset.mem_range.2 ha)]
    · rw [if_neg hy]
      apply Finset.sum_eq_zero
      intro x _
      rw [if_neg]
      intro hcontra
      rw [Prod.mk.injEq] at hcontra
      exact hy (by exact_mod_cast hcontra.2)
  rw [Finset.sum_congr rfl hinner, Finset.sum_ite_eq' (Finset.range H) b fun _ => c,
    if_pos (Finset.mem_range.2 hb)]

/-- Effect on the total grain count of replacing the value at one in-grid
cell. -/
lemma gridSum_pointUpdate (s : SandGrid) (p : ℤ × ℤ) (F : ℤ → ℤ)
    (hv : isValidGridPosition s p.1 p.2) :
    gridSum { s with grains := fun x y => if (x, y) = p then F (s.grains x y) else s.grains x y }
      = gridSum s + (F (s.grains p.1 p.2) - s.grains p.1 p.2) := by
  obtain ⟨px, py⟩ := p
  obtain ⟨h1, h2, h3, h4⟩ := hv
  rw [pointUpdate_eq]
  show (∑ y ∈ Finset.range s.gridHeight, ∑ x ∈ Finset.range s.gridWidth,
      if (((x : ℕ) : ℤ), ((y : ℕ) : ℤ)) = (px, py) then F (s.grains px py)
      else s.grains ((x : ℕ) : ℤ) ((y : ℕ) : ℤ)) = _
  have hsplit : ∀ y ∈ Finset.range s.gridHeight, ∀ x ∈ Finset.range s.gridWidth,
      (if (((x : ℕ) : ℤ), ((y : ℕ) : ℤ)) = (px, py) then F (s.grains px py)
        else s.grains ((x : ℕ) : ℤ) ((y : ℕ) : ℤ))
        = s.grains ((x : ℕ) : ℤ) ((y : ℕ) : ℤ)
          + (if (((x : ℕ) : ℤ), ((y : ℕ) : ℤ)) = (px, py)
              then F (s.grains px py) - s.grains px py else 0) := by
    intro y _ x _
    by_cases h : (((x : ℕ) : ℤ), ((y : ℕ) : ℤ)) = (px, py)
    · rw [if_pos h, if_pos h, show ((x : ℕ) : ℤ) = px from congrArg Prod.fst h,
        show ((y : ℕ) : ℤ) = py from congrArg Prod.snd h]
      ring
    · rw [if_neg h, if_neg h]
      ring
  rw [Finset.sum_congr rfl fun y hy => Finset.sum_congr rfl fun x hx => hsplit y hy x hx]
  rw [Finset.sum_congr rfl fun y _ => Finset.sum_add_distrib, Finset.sum_add_distrib]
  rw [sum_indicator_point (F (s.grains px py) - s.grains px py) h1 h2 h3 h4]
  rfl

lemma gridSum_addGrains (s : SandGrid) (p : ℤ × ℤ) (c : ℤ)
    (hv : isValidGridPosition s p.1 p.2) :
    gridSum (addGrains s p c) = gridSum s + c := by
  have h := gridSum_pointUpdate s p (fun v => v + c) hv
  rw [show gridSum s + c = gridSum s + (s.grains p.1 p.2 + c - s.grains p.1 p.2) by ring]
  exact h

lemma filter_length_split (l : List (ℤ × ℤ)) (p : ℤ × ℤ → Bool) :
    (l.filter p).length + (l.filter fun q => !(p q)).length = l.length := by
  induction l with
  | nil => rfl
  | cons q l ih =>
    cases hq : p q <;> simp [List.filter_cons, hq] <;> omega

lemma isValid_congr {s t : SandGrid} (hW : t.gridWidth = s.gridWidth)
    (hH : t.gridHeight = s.gridHeight) (x y : ℤ) :
    isValidGridPosition t x y ↔ isValidGridPosition s x y := by
  unfold isValidGridPosition
  rw [hW, hH]

lemma foldAdd_gridWidth (l : List (ℤ × ℤ)) (s : SandGrid) (k : ℤ) :
    (l.foldl (fun t q => if isValidGridPosition t q.1 q.2 then addGrains t q k else t) s).gridWidth
      = s.gridWidth := by
  induction l generalizing s with
  | nil => rfl
  | cons q l ih =>
    rw [List.foldl_cons, ih]
    split <;> rfl

lemma foldAdd_gridHeight (l : List (ℤ × ℤ)) (s : SandGrid) (k : ℤ) :
    (l.foldl (fun t q => if isValidGridPosition t q.1 q.2 then addGrains t q k else t) s).gridHeight
      = s.gridHeight := by
  induction l generalizing s with
  | nil => rfl
  | cons q l ih =>
    rw [List.foldl_cons, ih]
    split <;> rfl

lemma toppleCellAt_gridWidth (s : SandGrid) (p : ℤ × ℤ) :
    (toppleCellAt s p).gridWidth = s.gridWidth := by
  unfold toppleCellAt
  split
  · exact foldAdd_gridWidth _ _ _
  · rfl

lemma toppleCellAt_gridHeight (s : SandGrid) (p : ℤ × ℤ) :
    (toppleCellAt s p).gridHeight = s.gridHeight := by
  unfold toppleCellAt
  split
  · exact foldAdd_gridHeight _ _ _
  · rfl

lemma gridSum_neighborFold (l : List (ℤ × ℤ)) (s : SandGrid) (k : ℤ) :
    gridSum (l.foldl (fun t q => if isValidGridPosition t q.1 q.2 then addGrains t q k else t) s)
      = gridSum s
        + k * (((l.filter fun q => decide (isValidGridPosition s q.1 q.2)).length : ℕ) : ℤ) := by
  induction l generalizing s with
  | nil => simp
  | cons q l ih =>
    rw [List.foldl_cons, List.filter_cons]
    by_cases hv : isValidGridPosition s q.1 q.2
    · rw [if_pos hv, ih (addGrains s q k)]
      have hfix : (l.filter fun r => decide (isValidGridPosition (addGrains s q k) r.1 r.2))
          = l.filter fun r => decide (isValidGridPosition s r.1 r.2) := by
        apply List.filter_congr
        intro r _
        exact decide_eq_decide.2 Iff.rfl
      rw [hfix, gridSum_addGrains s q k hv]
      rw [show decide (isValidGridPosition s q.1 q.2) = true from decide_eq_true hv]
      rw [if_pos rfl, List.length_cons]
      push_cast
      ring
    · rw [if_neg hv, ih s]
      rw [show decide (isValidGridPosition s q.1 q.2) = false from
        decide_eq_false hv]
      rw [if_neg (by simp)]

lemma gridSum_toppleCellAt (s : SandGrid) (p : ℤ × ℤ)
    (hv : isValidGridPosition s p.1 p.2) (hg : 4 ≤ s.grains p.1 p.2) :
    gridSum (toppleCellAt s p)
      = gridSum s - (s.grains p.1 p.2 / 4) * ((invalidNeighborCount s p : ℕ) : ℤ) := by
  unfold toppleCellAt
  rw [if_pos hg]
  show gridSum ((neighborPositions p).foldl
      (fun t q => if isValidGridPosition t q.1 q.2 then addGrains t q (s.grains p.1 p.2 / 4) else t)
      { s with grains := fun x y =>
          if (x, y) = p then s.grains x y - 4 * (s.grains p.1 p.2 / 4) else s.grains x y }) = _
  set k := s.grains p.1 p.2 / 4 with hk
  set s1 : SandGrid := { s with grains := fun x y =>
      if (x, y) = p then s.grains x y - 4 * k else s.grains x y } with hs1
  rw [gridSum_neighborFold (neighborPositions p) s1 k]
  have hsum1 : gridSum s1 = gridSum s - 4 * k := by
    rw [hs1]
    have h := gridSum_pointUpdate s p (fun v => v - 4 * k) hv
    rw [h]
    ring
  have hfix : ((neighborPositions p).filter fun r => decide (isValidGridPosition s1 r.1 r.2))
      = (neighborPositions p).filter fun r => decide (isValidGridPosition s r.1 r.2) := by
    apply List.filter_congr
    intro r _
    exact decide_eq_decide.2 Iff.rfl
  rw [hsum1, hfix]
  have hsplit := filter_length_split (neighborPositions p)
    fun r => decide (isValidGridPosition s r.1 r.2)
  have hlen : (neighborPositions p).length = 4 := rfl
  rw [hlen] at hsplit
  have hinv : invalidNeighborCount s p
      = ((neighborPositions p).filter fun r => !(decide (isValidGridPosition s r.1 r.2))).length :=
    rfl
  have hcast : (((neighborPositions p).filter
        fun r => decide (isValidGridPosition s r.1 r.2)).length : ℤ)
      + ((invalidNeighborCount s p : ℕ) : ℤ) = 4 := by
    rw [hinv]
    exact_mod_cast hsplit
  linear_combination k * hcast

lemma waveStep_state_gridWidth (w : WaveResult) (p : ℤ × ℤ) :
    (waveStep w p).state.gridWidth = w.state.gridWidth := by
  unfold waveStep
  split
  · rfl
  · split
    · exact toppleCellAt_gridWidth _ _
    · rfl

lemma waveStep_state_gridHeight (w : WaveResult) (p : ℤ × ℤ) :
    (waveStep w p).state.gridHeight = w.state.gridHeight := by
  unfold waveStep
  split
  · rfl
  · split
    · exact toppleCellAt_gridHeight _ _
    · rfl

lemma waveStep_conserves (w : WaveResult) (p : ℤ × ℤ)
    (hv : isValidGridPosition w.state p.1 p.2) :
    gridSum (waveStep w p).state + (waveStep w p).lost = gridSum w.state + w.lost := by
  unfold waveStep
  split
  · rfl
  · split
    · rename_i hg
      show gridSum (toppleCellAt w.state p) + (w.lost + _) = _
      rw [gridSum_toppleCellAt w.state p hv hg]
      ring
    · rfl

lemma foldl_waveStep_conserves (l : List (ℤ × ℤ)) (w : WaveResult)
    (hval : ∀ p ∈ l, isValidGridPosition w.state p.1 p.2) :
    gridSum (l.foldl waveStep w).state + (l.foldl waveStep w).lost
      = gridSum w.state + w.lost := by
  induction l generalizing w with
  | nil => rfl
  | cons p l ih =>
    rw [List.foldl_cons]
    have hp := hval p (List.mem_cons_self ..)
    have hrest : ∀ q ∈ l, isValidGridPosition (waveStep w p).state q.1 q.2 := by
      intro q hq
      exact (isValid_congr (waveStep_state_gridWidth w p)
        (waveStep_state_gridHeight w p) q.1 q.2).2 (hval q (List.mem_cons_of_mem _ hq))
    rw [ih (waveStep w p) hrest, waveStep_conserves w p hp]

/-- C3, amended.  One `processToppling` wave conserves grains up to the
off-grid loss: the total grain count before the wave equals the total after
plus the grains lost off-grid, where the loss of each executed topple is
`grainsPerNeighbor × (number of its 4 neighbor positions falling outside
the grid)` — not `4 × (number of boundary-adjacent topples)` as claimed. -/
theorem processToppling_conserves_grains (s : SandGrid) :
    gridSum s = gridSum (processTopplingFull s).state + (processTopplingFull s).lost := by
  unfold processTopplingFull
  have hval : ∀ p ∈ unstableCells s,
      isValidGridPosition (⟨s, 0, 0, 0⟩ : WaveResult).state p.1 p.2 :=
    fun p hp => (mem_unstableCells.1 hp).1
  have h := foldl_waveStep_conserves (unstableCells s) ⟨s, 0, 0, 0⟩ hval
  rw [h]
  show gridSum s = gridSum s + 0
  ring

/-- A 3×3 grid whose only grains are 4 at the corner cell `(0,0)`. -/
def boundaryGrid : SandGrid :=
  { gridWidth := 3, gridHeight := 3
    grains := fun x y => if x = 0 ∧ y = 0 then 4 else 0 }

/-- C3, counterexample.  On `boundaryGrid` the single wave executes one
topple at the corner: 2 of its 4 neighbor positions are off-grid, so exactly
2 grains (not 4) are lost.  The claimed identity
`total before = total after + 4 × (boundary-adjacent topples)` fails:
`4 ≠ 2 + 4·1`. -/
theorem sandpile_wave_loss_formula_refuted :
    gridSum boundaryGrid ≠
      gridSum (processTopplingFull boundaryGrid).state
        + 4 * (((processTopplingFull boundaryGrid).boundaryTopples : ℕ) : ℤ) := by
  decide

/-! ### Claim C4: order-independence of full stabilization

The source's `processToppling` visits the snapshot of unstable cells in
row-major order; the claim states that any processing order of the snapshot,
with the safety caps removed, stabilizes to the same grid.  We prove the
classical abelian-sandpile confluence: every legal sequence of (multi-)
topples ending in a stable grid ends in the same grid.  The proof device is
the elementary *unit* topple (remove 4 grains, one per neighbor position);
`SandpileCell.topple()` removing `floor(grains/4)*4` grains at once is the
unit topple iterated. -/

/-- Net effect of one unit topple at `p` on the cell `(x, y)` of a `W × H`
grid: the toppling cell loses 4 grains, each in-grid neighbor gains 1. -/
def deltaAt (W H : ℕ) (p : ℤ × ℤ) (x y : ℤ) : ℤ :=
  (if (x, y) = p then -4 else 0)
    + (if (x, y) ∈ neighborPositions p ∧ (0 ≤ x ∧ x < (W : ℤ) ∧ 0 ≤ y ∧ y < (H : ℤ))
        then 1 else 0)

/-- One unit topple at `p` (proof device; see `toppleCellAt_grains`). -/
def unitTopple (s : SandGrid) (p : ℤ × ℤ) : SandGrid :=
  { s with grains := fun x y => s.grains x y + deltaAt s.gridWidth s.gridHeight p x y }

@[simp] lemma unitTopple_gridWidth (s : SandGrid) (p : ℤ × ℤ) :
    (unitTopple s p).gridWidth = s.gridWidth := rfl

@[simp] lemma unitTopple_gridHeight (s : SandGrid) (p : ℤ × ℤ) :
    (unitTopple s p).gridHeight = s.gridHeight := rfl

lemma not_mem_neighborPositions_self (p : ℤ × ℤ) : p ∉ neighborPositions p := by
  simp only [neighborPositions, List.mem_cons, List.not_mem_nil, or_false]
  rintro (h | h | h | h) <;>
    · have h1 := congrArg Prod.fst h
      have h2 := congrArg Prod.snd h
      simp only at h1 h2
      omega

lemma deltaAt_self (W H : ℕ) (p : ℤ × ℤ) : deltaAt W H p p.1 p.2 = -4 := by
  unfold deltaAt
  rw [if_pos Prod.mk.eta, if_neg, add_zero]
  rintro ⟨hmem, -⟩
  rw [Prod.mk.eta] at hmem
  exact not_mem_neighborPositions_self p hmem

lemma deltaAt_nonneg_of_ne (W H : ℕ) {p : ℤ × ℤ} {x y : ℤ} (h : (x, y) ≠ p) :
    0 ≤ deltaAt W H p x y := by
  unfold deltaAt
  rw [if_neg h]
  split <;> omega

/-- Effect on every single cell of the guarded neighbor-distribution fold. -/
lemma foldAdd_grains (l : List (ℤ × ℤ)) (s : SandGrid) (k : ℤ) (x y : ℤ) :
    (l.foldl (fun t q => if isValidGridPosition t q.1 q.2 then addGrains t q k else t) s).grains x y
      = s.grains x y
        + k * ((l.map fun q =>
            if (x, y) = q ∧ isValidGridPosition s q.1 q.2 then (1 : ℤ) else 0).sum) := by
  induction l generalizing s with
  | nil => simp
  | cons q l ih =>
    rw [List.foldl_cons, List.map_cons, List.sum_cons]
    by_cases hv : isValidGridPosition s q.1 q.2
    · rw [if_pos hv, ih (addGrains s q k)]
      have hmap : (l.map fun r =>
            if (x, y) = r ∧ isValidGridPosition (addGrains s q k) r.1 r.2 then (1 : ℤ) else 0)
          = l.map fun r => if (x, y) = r ∧ isValidGridPosition s r.1 r.2 then (1 : ℤ) else 0 := by
        apply List.map_congr_left
        intro r _
        exact if_congr Iff.rfl rfl rfl
      have hbase : (addGrains s q k).grains x y
          = s.grains x y + (if (x, y) = q then k else 0) := by
        show (if (x, y) = q then s.grains x y + k else s.grains x y)
          = s.grains x y + (if (x, y) = q then k else 0)
        by_cases h : (x, y) = q
        · rw [if_pos h, if_pos h]
        · rw [if_neg h, if_neg h, add_zero]
      rw [hmap, hbase, if_congr (and_iff_left hv) rfl rfl]
      by_cases hxy : (x, y) = q
      · rw [if_pos hxy, if_pos hxy]
        ring
      · rw [if_neg hxy, if_neg hxy]
        ring
    · rw [if_neg hv, ih s, if_neg (by rintro ⟨-, hc⟩; exact hv hc)]
      ring

lemma neighborPositions_nodup (p : ℤ × ℤ) : (neighborPositions p).Nodup := by
  obtain ⟨a, b⟩ := p
  unfold neighborPositions
  simp [List.nodup_cons, Prod.mk.injEq]
  omega

lemma sum_indicator_list (l : List (ℤ × ℤ)) (v : ℤ × ℤ) (hnd : l.Nodup) :
    (l.map fun r => if v = r then (1 : ℤ) else 0).sum = if v ∈ l then 1 else 0 := by
  induction l with
  | nil => simp
  | cons a l ih =>
    rw [List.nodup_cons] at hnd
    rw [List.map_cons, List.sum_cons]
    by_cases hv : v = a
    · rw [if_pos hv]
      have hzero : (l.map fun r => if v = r then (1 : ℤ) else 0).sum = 0 := by
        apply List.sum_eq_zero
        intro z hz
        obtain ⟨r, hr, hrz⟩ := List.mem_map.1 hz
        rw [← hrz, if_neg]
        intro hc
        have har : a = r := by rw [← hv]; exact hc
        exact hnd.1 (har.symm ▸ hr)
      rw [hzero, if_pos (by rw [hv]; exact List.mem_cons_self ..)]
      ring
    · rw [if_neg hv, ih hnd.2]
      by_cases hm : v ∈ l
      · rw [if_pos hm, if_pos (List.mem_cons_of_mem _ hm)]
        ring
      · rw [if_neg hm, if_neg (by rw [List.mem_cons]; rintro (h | h); exacts [hv h, hm h])]
        ring

/-- `SandpileCell.topple()` plus the distribution loop acts on the grid as
`grains/4` simultaneous unit topples. -/
lemma toppleCellAt_grains (s : SandGrid) (p : ℤ × ℤ) (hg : 4 ≤ s.grains p.1 p.2)
    (x y : ℤ) :
    (toppleCellAt s p).grains x y
      = s.grains x y + (s.grains p.1 p.2 / 4) * deltaAt s.gridWidth s.gridHeight p x y := by
  unfold toppleCellAt
  rw [if_pos hg]
  show ((neighborPositions p).foldl
      (fun t q => if isValidGridPosition t q.1 q.2 then addGrains t q (s.grains p.1 p.2 / 4) else t)
      { s with grains := fun x y =>
          if (x, y) = p then s.grains x y - 4 * (s.grains p.1 p.2 / 4) else s.grains x y }).grains x y
    = _
  set k := s.grains p.1 p.2 / 4 with hk
  set s1 : SandGrid := { s with grains := fun x y =>
      if (x, y) = p then s.grains x y - 4 * k else s.grains x y } with hs1
  rw [foldAdd_grains (neighborPositions p) s1 k x y]
  have hbase : s1.grains x y = s.grains x y + (if (x, y) = p then -(4 * k) else 0) := by
    rw [hs1]
    show (if (x, y) = p then s.grains x y - 4 * k else s.grains x y) = _
    by_cases h : (x, y) = p
    · rw [if_pos h, if_pos h]
      ring
    · rw [if_neg h, if_neg h, add_zero]
  have hmap : ((neighborPositions p).map fun q =>
        if (x, y) = q ∧ isValidGridPosition s1 q.1 q.2 then (1 : ℤ) else 0)
      = (neighborPositions p).map fun q =>
        if (x, y) = q ∧ isValidGridPosition s q.1 q.2 then (1 : ℤ) else 0 := by
    apply List.map_congr_left
    intro r _
    exact if_congr Iff.rfl rfl rfl
  rw [hbase, hmap]
  unfold deltaAt
  have hsum : ((neighborPositions p).map fun q =>
        if (x, y) = q ∧ isValidGridPosition s q.1 q.2 then (1 : ℤ) else 0).sum
      = if (x, y) ∈ neighborPositions p
          ∧ (0 ≤ x ∧ x < (s.gridWidth : ℤ) ∧ 0 ≤ y ∧ y < (s.gridHeight : ℤ)) then 1 else 0 := by
    have hvx : ∀ q : ℤ × ℤ, (x, y) = q →
        (isValidGridPosition s q.1 q.2
          ↔ (0 ≤ x ∧ x < (s.gridWidth : ℤ) ∧ 0 ≤ y ∧ y < (s.gridHeight : ℤ))) := by
      rintro q rfl
      exact Iff.rfl
    have hmapeq : ((neighborPositions p).map fun q =>
          if (x, y) = q ∧ isValidGridPosition s q.1 q.2 then (1 : ℤ) else 0)
        = (neighborPositions p).map fun q =>
          if (x, y) = q
            ∧ (0 ≤ x ∧ x < (s.gridWidth : ℤ) ∧ 0 ≤ y ∧ y < (s.gridHeight : ℤ)) then (1 : ℤ)
          else 0 := by
      apply List.map_congr_left
      intro r _
      by_cases hr : (x, y) = r
      · exact if_congr (and_congr_right fun _ => hvx r hr) rfl rfl
      · rw [if_neg (fun hc => hr hc.1), if_neg (fun hc => hr hc.1)]
    rw [hmapeq]
    by_cases hvalid : 0 ≤ x ∧ x < (s.gridWidth : ℤ) ∧ 0 ≤ y ∧ y < (s.gridHeight : ℤ)
    · have hcond : ∀ r : ℤ × ℤ,
          ((x, y) = r ∧ (0 ≤ x ∧ x < (s.gridWidth : ℤ) ∧ 0 ≤ y ∧ y < (s.gridHeight : ℤ)))
            ↔ (x, y) = r := fun r => and_iff_left hvalid
      have hme : ((x, y) ∈ neighborPositions p
            ∧ (0 ≤ x ∧ x < (s.gridWidth : ℤ) ∧ 0 ≤ y ∧ y < (s.gridHeight : ℤ)))
          ↔ (x, y) ∈ neighborPositions p := and_iff_left hvalid
      rw [if_congr hme rfl rfl]
      have hrw : ((neighborPositions p).map fun r =>
            if (x, y) = r
              ∧ (0 ≤ x ∧ x < (s.gridWidth : ℤ) ∧ 0 ≤ y ∧ y < (s.gridHeight : ℤ)) then (1 : ℤ)
            else 0)
          = (neighborPositions p).map fun r => if (x, y) = r then (1 : ℤ) else 0 := by
        apply List.map_congr_left
        intro r _
        exact if_congr (hcond r) rfl rfl
      rw [hrw]
      exact sum_indicator_list (neighborPositions p) (x, y) (neighborPositions_nodup p)
    · have hth : ∀ r : ℤ × ℤ, ¬((x, y) = r
          ∧ (0 ≤ x ∧ x < (s.gridWidth : ℤ) ∧ 0 ≤ y ∧ y < (s.gridHeight : ℤ))) :=
        fun r hc => hvalid hc.2
      rw [if_neg (fun hc => hvalid hc.2)]
      have hrw : ((neighborPositions p).map fun r =>
            if (x, y) = r
              ∧ (0 ≤ x ∧ x < (s.gridWidth : ℤ) ∧ 0 ≤ y ∧ y < (s.gridHeight : ℤ)) then (1 : ℤ)
            else 0)
          = (neighborPositions p).map fun _ => (0 : ℤ) := by
        apply List.map_congr_left
        intro r _
        exact if_neg (hth r)
      rw [hrw]
      rfl
  rw [hsum]
  by_cases hp : (x, y) = p
  · simp only [if_pos hp]
    ring
  · simp only [if_neg hp]
    ring

lemma sandGrid_ext {s t : SandGrid} (hW : s.gridWidth = t.gridWidth)
    (hH : s.gridHeight = t.gridHeight) (hg : ∀ x y : ℤ, s.grains x y = t.grains x y) :
    s = t := by
  cases s
  cases t
  simp only at hW hH hg
  subst hW hH
  congr 1
  funext x y
  exact hg x y

/-- Apply a sequence of unit topples. -/
def applySeq : SandGrid → List (ℤ × ℤ) → SandGrid
  | s, [] => s
  | s, p :: l => applySeq (unitTopple s p) l

/-- Net effect of a sequence of unit topples on one cell. -/
def seqDelta (W H : ℕ) (l : List (ℤ × ℤ)) (x y : ℤ) : ℤ :=
  (l.map fun p => deltaAt W H p x y).sum

lemma applySeq_gridWidth (l : List (ℤ × ℤ)) (s : SandGrid) :
    (applySeq s l).gridWidth = s.gridWidth := by
  induction l generalizing s with
  | nil => rfl
  | cons p l ih => exact ih (unitTopple s p)

lemma applySeq_gridHeight (l : List (ℤ × ℤ)) (s : SandGrid) :
    (applySeq s l).gridHeight = s.gridHeight := by
  induction l generalizing s with
  | nil => rfl
  | cons p l ih => exact ih (unitTopple s p)

lemma applySeq_grains (l : List (ℤ × ℤ)) (s : SandGrid) (x y : ℤ) :
    (applySeq s l).grains x y
      = s.grains x y + seqDelta s.gridWidth s.gridHeight l x y := by
  induction l generalizing s with
  | nil =>
    show s.grains x y = s.grains x y + seqDelta s.gridWidth s.gridHeight [] x y
    simp [seqDelta]
  | cons p l ih =>
    show (applySeq (unitTopple s p) l).grains x y = _
    rw [ih (unitTopple s p)]
    show s.grains x y + deltaAt s.gridWidth s.gridHeight p x y
        + seqDelta s.gridWidth s.gridHeight l x y = _
    unfold seqDelta
    rw [List.map_cons, List.sum_cons]
    ring

/-- The result of a unit-topple sequence depends only on the multiset of
toppled cells. -/
lemma applySeq_perm {l₁ l₂ : List (ℤ × ℤ)} (h : l₁.Perm l₂) (s : SandGrid) :
    applySeq s l₁ = applySeq s l₂ := by
  apply sandGrid_ext
  · rw [applySeq_gridWidth, applySeq_gridWidth]
  · rw [applySeq_gridHeight, applySeq_gridHeight]
  · intro x y
    rw [applySeq_grains, applySeq_grains]
    unfold seqDelta
    rw [List.Perm.sum_eq (h.map fun p => deltaAt s.gridWidth s.gridHeight p x y)]

lemma unitTopple_comm (s : SandGrid) (p q : ℤ × ℤ) :
    unitTopple (unitTopple s p) q = unitTopple (unitTopple s q) p := by
  apply sandGrid_ext
  · rfl
  · rfl
  · intro x y
    show s.grains x y + deltaAt s.gridWidth s.gridHeight p x y
          + deltaAt s.gridWidth s.gridHeight q x y
        = s.grains x y + deltaAt s.gridWidth s.gridHeight q x y
          + deltaAt s.gridWidth s.gridHeight p x y
    ring

/-- A cell may legally topple when it is in-grid and unstable. -/
def Enabled (s : SandGrid) (p : ℤ × ℤ) : Prop :=
  isValidGridPosition s p.1 p.2 ∧ 4 ≤ s.grains p.1 p.2

/-- A legal sequence of unit topples: every toppled cell is unstable at the
moment it topples. -/
def LegalSeq : SandGrid → List (ℤ × ℤ) → Prop
  | _, [] => True
  | s, p :: l => Enabled s p ∧ LegalSeq (unitTopple s p) l

lemma grains_le_unitTopple_of_ne (s : SandGrid) {p q : ℤ × ℤ} (h : p ≠ q) :
    s.grains p.1 p.2 ≤ (unitTopple s q).grains p.1 p.2 := by
  show s.grains p.1 p.2 ≤ s.grains p.1 p.2 + deltaAt s.gridWidth s.gridHeight q p.1 p.2
  have := deltaAt_nonneg_of_ne s.gridWidth s.gridHeight
    (p := q) (x := p.1) (y := p.2) (by rw [Prod.mk.eta]; exact h)
  omega

lemma enabled_unitTopple_of_ne {s : SandGrid} {p q : ℤ × ℤ} (h : p ≠ q)
    (hE : Enabled s p) : Enabled (unitTopple s q) p :=
  ⟨hE.1, le_trans hE.2 (grains_le_unitTopple_of_ne s h)⟩

/-- A cell unstable now and never toppled stays unstable: toppling other
cells never removes its grains. -/
lemma grains_le_applySeq_of_not_mem {l : List (ℤ × ℤ)} {p : ℤ × ℤ} (hnm : p ∉ l)
    (s : SandGrid) : s.grains p.1 p.2 ≤ (applySeq s l).grains p.1 p.2 := by
  induction l generalizing s with
  | nil => exact le_rfl
  | cons q l ih =>
    have hpq : p ≠ q := fun hc => hnm (hc ▸ List.mem_cons_self ..)
    have h1 := grains_le_unitTopple_of_ne s hpq
    have h2 := ih (fun hc => hnm (List.mem_cons_of_mem _ hc)) (unitTopple s q)
    exact le_trans h1 h2

lemma exists_first_split {p : ℤ × ℤ} : ∀ {l : List (ℤ × ℤ)}, p ∈ l →
    ∃ a b : List (ℤ × ℤ), l = a ++ p :: b ∧ p ∉ a := by
  intro l
  induction l with
  | nil => intro h; exact absurd h (List.not_mem_nil p)
  | cons q l ih =>
    intro h
    by_cases hq : p = q
    · exact ⟨[], l, by rw [hq, List.nil_append], List.not_mem_nil p⟩
    · have hmem : p ∈ l := by
        rcases List.mem_cons.1 h with h' | h'
        · exact absurd h' hq
        · exact h'
      obtain ⟨a, b, rfl, hna⟩ := ih hmem
      exact ⟨q :: a, b, rfl, by
        rw [List.mem_cons]
        rintro (hc | hc)
        exacts [hq hc, hna hc]⟩

/-- An enabled cell not occurring in the prefix may be toppled first: the
sequence stays legal and the result is unchanged. -/
lemma legal_move_front : ∀ (a : List (ℤ × ℤ)) (s : SandGrid) (p : ℤ × ℤ)
    (b : List (ℤ × ℤ)), Enabled s p → p ∉ a → LegalSeq s (a ++ p :: b) →
    LegalSeq s (p :: (a ++ b)) ∧ applySeq s (p :: (a ++ b)) = applySeq s (a ++ p :: b) := by
  intro a
  induction a with
  | nil =>
    intro s p b hE _ hL
    exact ⟨hL, rfl⟩
  | cons q a ih =>
    intro s p b hE hnm hL
    have hpq : p ≠ q := fun hc => hnm (hc ▸ List.mem_cons_self ..)
    have hna : p ∉ a := fun hc => hnm (List.mem_cons_of_mem _ hc)
    obtain ⟨hq, hL'⟩ : Enabled s q ∧ LegalSeq (unitTopple s q) (a ++ p :: b) := hL
    have hE' : Enabled (unitTopple s q) p := enabled_unitTopple_of_ne hpq hE
    obtain ⟨ihL, ihEq⟩ := ih (unitTopple s q) p b hE' hna hL'
    have hqp : q ≠ p := fun hc => hpq hc.symm
    constructor
    · refine ⟨hE, ?_⟩
      show LegalSeq (unitTopple s p) (q :: (a ++ b))
      refine ⟨enabled_unitTopple_of_ne hqp hq, ?_⟩
      show LegalSeq (unitTopple (unitTopple s p) q) (a ++ b)
      rw [unitTopple_comm]
      exact ihL.2
    · show applySeq (unitTopple (unitTopple s p) q) (a ++ b)
        = applySeq (unitTopple s q) (a ++ p :: b)
      rw [unitTopple_comm]
      calc applySeq (unitTopple (unitTopple s q) p) (a ++ b)
          = applySeq (unitTopple s q) (p :: (a ++ b)) := rfl
        _ = applySeq (unitTopple s q) (a ++ p :: b) := ihEq

/-- A grid is stable when no in-grid cell can topple. -/
def StableGrid (s : SandGrid) : Prop :=
  ∀ x y : ℤ, isValidGridPosition s x y → s.grains x y ≤ 3

/-- Abelian confluence: two legal unit-topple sequences from the same grid
that both end in stable grids end in the *same* grid. -/
lemma legal_stable_unique : ∀ (n : ℕ) (s : SandGrid) (l₁ l₂ : List (ℤ × ℤ)),
    l₂.length = n → LegalSeq s l₁ → LegalSeq s l₂ →
    StableGrid (applySeq s l₁) → StableGrid (applySeq s l₂) →
    applySeq s l₁ = applySeq s l₂ := by
  intro n
  induction n with
  | zero =>
    intro s l₁ l₂ hlen hL₁ hL₂ hS₁ hS₂
    have hl₂ : l₂ = [] := List.length_eq_zero.1 hlen
    subst hl₂
    cases l₁ with
    | nil => rfl
    | cons p l₁' =>
      exfalso
      obtain ⟨⟨hv, hg⟩, -⟩ : Enabled s p ∧ LegalSeq (unitTopple s p) l₁' := hL₁
      have h3 : s.grains p.1 p.2 ≤ 3 := hS₂ p.1 p.2 hv
      omega
  | succ n ih =>
    intro s l₁ l₂ hlen hL₁ hL₂ hS₁ hS₂
    cases l₁ with
    | nil =>
      exfalso
      cases l₂ with
      | nil => exact absurd hlen (by simp)
      | cons q l₂' =>
        obtain ⟨⟨hv, hg⟩, -⟩ : Enabled s q ∧ LegalSeq (unitTopple s q) l₂' := hL₂
        have h3 : s.grains q.1 q.2 ≤ 3 := hS₁ q.1 q.2 hv
        omega
    | cons p l₁' =>
      obtain ⟨hE, hL₁'⟩ : Enabled s p ∧ LegalSeq (unitTopple s p) l₁' := hL₁
      have hmem : p ∈ l₂ := by
        by_contra hnm
        have hmono := grains_le_applySeq_of_not_mem hnm s
        have hvfin : isValidGridPosition (applySeq s l₂) p.1 p.2 := by
          rw [isValid_congr (applySeq_gridWidth l₂ s) (applySeq_gridHeight l₂ s) p.1 p.2]
          exact hE.1
        have := hS₂ p.1 p.2 hvfin
        have := hE.2
        omega
      obtain ⟨a, b, rfl, hpa⟩ := exists_first_split hmem
      obtain ⟨hLmv, hEqmv⟩ := legal_move_front a s p b hE hpa hL₂
      have hL₂' : LegalSeq (unitTopple s p) (a ++ b) := hLmv.2
      have hlen' : (a ++ b).length = n := by
        rw [List.length_append] at hlen ⊢
        simp only [List.length_cons] at hlen
        omega
      have hS₂' : StableGrid (applySeq (unitTopple s p) (a ++ b)) := by
        have : applySeq (unitTopple s p) (a ++ b) = applySeq s (a ++ p :: b) := hEqmv
        rw [this]
        exact hS₂
      have hkey := ih (unitTopple s p) l₁' (a ++ b) hlen' hL₁' hL₂' hS₁ hS₂'
      show applySeq (unitTopple s p) l₁' = applySeq s (a ++ p :: b)
      rw [hkey]
      exact hEqmv

lemma unitTopple_self_grains (s : SandGrid) (p : ℤ × ℤ) :
    (unitTopple s p).grains p.1 p.2 = s.grains p.1 p.2 - 4 := by
  show s.grains p.1 p.2 + deltaAt s.gridWidth s.gridHeight p p.1 p.2 = _
  rw [deltaAt_self]
  ring

lemma legalSeq_replicate (m : ℕ) : ∀ (s : SandGrid) (p : ℤ × ℤ),
    isValidGridPosition s p.1 p.2 → 4 * (m : ℤ) ≤ s.grains p.1 p.2 →
    LegalSeq s (List.replicate m p) := by
  induction m with
  | zero => intro s p _ _; exact trivial
  | succ m ih =>
    intro s p hv hg
    rw [List.replicate_succ]
    refine ⟨⟨hv, by push_cast at hg; omega⟩, ?_⟩
    exact ih (unitTopple s p) p hv
      (by rw [unitTopple_self_grains]; push_cast at hg ⊢; omega)

/-- A multi-grain `topple()` equals `grains/4` unit topples. -/
lemma toppleCellAt_eq_applySeq (s : SandGrid) (p : ℤ × ℤ)
    (hg : 4 ≤ s.grains p.1 p.2) :
    toppleCellAt s p = applySeq s (List.replicate (s.grains p.1 p.2 / 4).toNat p) := by
  apply sandGrid_ext
  · rw [toppleCellAt_gridWidth, applySeq_gridWidth]
  · rw [toppleCellAt_gridHeight, applySeq_gridHeight]
  · intro x y
    rw [toppleCellAt_grains s p hg x y, applySeq_grains]
    unfold seqDelta
    rw [List.map_replicate, List.sum_replicate, nsmul_eq_mul]
    have hcast : (((s.grains p.1 p.2 / 4).toNat : ℕ) : ℤ) = s.grains p.1 p.2 / 4 := by
      omega
    rw [hcast]

lemma applySeq_append (l₁ l₂ : List (ℤ × ℤ)) (s : SandGrid) :
    applySeq s (l₁ ++ l₂) = applySeq (applySeq s l₁) l₂ := by
  induction l₁ generalizing s with
  | nil => rfl
  | cons p l ih => exact ih (unitTopple s p)

lemma legalSeq_append {l₁ l₂ : List (ℤ × ℤ)} (s : SandGrid)
    (h₁ : LegalSeq s l₁) (h₂ : LegalSeq (applySeq s l₁) l₂) :
    LegalSeq s (l₁ ++ l₂) := by
  induction l₁ generalizing s with
  | nil => exact h₂
  | cons p l ih =>
    obtain ⟨hE, hL⟩ : Enabled s p ∧ LegalSeq (unitTopple s p) l := h₁
    exact ⟨hE, ih (unitTopple s p) hL h₂⟩

/-- The body of `processToppling` with the safety caps removed and with an
arbitrary processing order `order` in place of the row-major snapshot
traversal: each listed cell runs `SandpileCell.topple()` — a no-op unless
the cell is (still) unstable — followed by the neighbor distribution. -/
def processWaveOrdered (s : SandGrid) (order : List (ℤ × ℤ)) : SandGrid :=
  order.foldl toppleCellAt s

/-- Run successive toppling waves, each with its own processing order. -/
def runWaves : SandGrid → List (List (ℤ × ℤ)) → SandGrid
  | s, [] => s
  | s, o :: os => runWaves (processWaveOrdered s o) os

/-- Every wave's order is a permutation of the snapshot of unstable cells
taken at the start of that wave. -/
def WaveOrders : SandGrid → List (List (ℤ × ℤ)) → Prop
  | _, [] => True
  | s, o :: os => o.Perm (unstableCells s) ∧ WaveOrders (processWaveOrdered s o) os

lemma processWaveOrdered_expand : ∀ (order : List (ℤ × ℤ)) (s : SandGrid),
    (∀ p ∈ order, isValidGridPosition s p.1 p.2) →
    ∃ u, LegalSeq s u ∧ processWaveOrdered s order = applySeq s u := by
  intro order
  induction order with
  | nil => intro s _; exact ⟨[], trivial, rfl⟩
  | cons p order ih =>
    intro s hval
    have hp := hval p (List.mem_cons_self ..)
    have hval' : ∀ q ∈ order, isValidGridPosition (toppleCellAt s p) q.1 q.2 := by
      intro q hq
      rw [isValid_congr (toppleCellAt_gridWidth s p) (toppleCellAt_gridHeight s p)]
      exact hval q (List.mem_cons_of_mem _ hq)
    obtain ⟨u, hu, hequ⟩ := ih (toppleCellAt s p) hval'
    by_cases hg : 4 ≤ s.grains p.1 p.2
    · have hle : 4 * (((s.grains p.1 p.2 / 4).toNat : ℕ) : ℤ) ≤ s.grains p.1 p.2 := by
        omega
      have hrep := legalSeq_replicate (s.grains p.1 p.2 / 4).toNat s p hp hle
      have heq := toppleCellAt_eq_applySeq s p hg
      refine ⟨List.replicate (s.grains p.1 p.2 / 4).toNat p ++ u, ?_, ?_⟩
      · apply legalSeq_append s hrep
        rw [← heq]
        exact hu
      · show processWaveOrdered (toppleCellAt s p) order = _
        rw [applySeq_append, ← heq, hequ]
    · have h0 : toppleCellAt s p = s := by
        unfold toppleCellAt
        rw [if_neg hg]
      refine ⟨u, ?_, ?_⟩
      · rw [← h0]
        exact hu
      · show processWaveOrdered (toppleCellAt s p) order = _
        rw [hequ, h0]

lemma runWaves_expand : ∀ (os : List (List (ℤ × ℤ))) (s : SandGrid), WaveOrders s os →
    ∃ u, LegalSeq s u ∧ runWaves s os = applySeq s u := by
  intro os
  induction os with
  | nil => intro s _; exact ⟨[], trivial, rfl⟩
  | cons o os ih =>
    intro s hwo
    obtain ⟨hperm, hrest⟩ : o.Perm (unstableCells s) ∧ WaveOrders (processWaveOrdered s o) os :=
      hwo
    have hval : ∀ p ∈ o, isValidGridPosition s p.1 p.2 := fun p hp =>
      (mem_unstableCells.1 (hperm.subset hp)).1
    obtain ⟨u₁, h₁, he₁⟩ := processWaveOrdered_expand o s hval
    obtain ⟨u₂, h₂, he₂⟩ := ih (processWaveOrdered s o) hrest
    refine ⟨u₁ ++ u₂, legalSeq_append s h₁ (by rw [← he₁]; exact h₂), ?_⟩
    show runWaves (processWaveOrdered s o) os = _
    rw [applySeq_append, ← he₁, he₂]

/-- One grain landing as in `addRandomSand`: the target coordinates are
clamped into the grid (`Math.max(0, Math.min(this.gridWidth - 1, ...))`)
and the chosen cell receives 1 grain via `addGrains(1)`. -/
def clampedAdd (s : SandGrid) (p : ℤ × ℤ) : SandGrid :=
  addGrains s (max 0 (min ((s.gridWidth : ℤ) - 1) p.1),
               max 0 (min ((s.gridHeight : ℤ) - 1) p.2)) 1

/-- A fixed sequence of single-grain additions. -/
def applyAdditions (s : SandGrid) (adds : List (ℤ × ℤ)) : SandGrid :=
  adds.foldl clampedAdd s

/-- C4.  With the safety caps removed, the fully stabilized grid obtained
from a fixed initial grid and a fixed sequence of grain additions is
independent of the order in which the unstable cells of each wave are
processed: any two wave-order choices whose runs both reach a stable grid
(no unstable cell left) yield identical grids. -/
theorem sandpile_stabilization_order_independent (s : SandGrid)
    (adds : List (ℤ × ℤ)) (os₁ os₂ : List (List (ℤ × ℤ)))
    (h₁ : WaveOrders (applyAdditions s adds) os₁)
    (h₂ : WaveOrders (applyAdditions s adds) os₂)
    (hs₁ : unstableCells (runWaves (applyAdditions s adds) os₁) = [])
    (hs₂ : unstableCells (runWaves (applyAdditions s adds) os₂) = []) :
    runWaves (applyAdditions s adds) os₁ = runWaves (applyAdditions s adds) os₂ := by
  obtain ⟨u₁, hu₁, he₁⟩ := runWaves_expand os₁ (applyAdditions s adds) h₁
  obtain ⟨u₂, hu₂, he₂⟩ := runWaves_expand os₂ (applyAdditions s adds) h₂
  have hS₁ : StableGrid (applySeq (applyAdditions s adds) u₁) := by
    rw [← he₁]
    exact unstableCells_eq_nil_iff.1 hs₁
  have hS₂ : StableGrid (applySeq (applyAdditions s adds) u₂) := by
    rw [← he₂]
    exact unstableCells_eq_nil_iff.1 hs₂
  rw [he₁, he₂]
  exact legal_stable_unique u₂.length (applyAdditions s adds) u₁ u₂ rfl hu₁ hu₂ hS₁ hS₂

/-- Two unstable cells on a 2×2 grid, for the C4 witness. -/
def confluenceGrid : SandGrid :=
  { gridWidth := 2, gridHeight := 2
    grains := fun x y => if (x = 0 ∧ y = 0) ∨ (x = 1 ∧ y = 1) then 4 else 0 }

theorem sandpile_stabilization_order_independent_witness :
    WaveOrders confluenceGrid [[((0 : ℤ), (0 : ℤ)), (1, 1)]] ∧
    WaveOrders confluenceGrid [[((1 : ℤ), (1 : ℤ)), (0, 0)]] ∧
    unstableCells (runWaves confluenceGrid [[((0 : ℤ), (0 : ℤ)), (1, 1)]]) = [] ∧
    unstableCells (runWaves confluenceGrid [[((1 : ℤ), (1 : ℤ)), (0, 0)]]) = [] ∧
    runWaves confluenceGrid [[((0 : ℤ), (0 : ℤ)), (1, 1)]]
      = runWaves confluenceGrid [[((1 : ℤ), (1 : ℤ)), (0, 0)]] := by
  have hu : unstableCells confluenceGrid = [((0 : ℤ), (0 : ℤ)), (1, 1)] := by decide
  have hw₁ : WaveOrders confluenceGrid [[((0 : ℤ), (0 : ℤ)), (1, 1)]] :=
    ⟨hu ▸ List.Perm.refl _, trivial⟩
  have hw₂ : WaveOrders confluenceGrid [[((1 : ℤ), (1 : ℤ)), (0, 0)]] :=
    ⟨hu ▸ List.Perm.swap ((0 : ℤ), (0 : ℤ)) ((1 : ℤ), (1 : ℤ)) [], trivial⟩
  have hn₁ : unstableCells (runWaves confluenceGrid [[((0 : ℤ), (0 : ℤ)), (1, 1)]]) = [] := by
    decide
  have hn₂ : unstableCells (runWaves confluenceGrid [[((1 : ℤ), (1 : ℤ)), (0, 0)]]) = [] := by
    decide
  exact ⟨hw₁, hw₂, hn₁, hn₂,
    sandpile_stabilization_order_independent confluenceGrid [] _ _ hw₁ hw₂ hn₁ hn₂⟩

/-! ### The `CloudsSimulation` (DualCAEngine) embedding

Grids are `grid[y][x]` arrays in the source; here they are total functions
applied as `grid x y`.  Life values are JS numbers 0/1 (`ℤ`); Lenia values
are floats, modelled as `ℝ` (the growth function uses `Math.exp`/`Math.sin`,
so these definitions are `noncomputable`).  `Math.random()` draws and
`Date.now()` are explicit parameters.  `this.regionSize = 16` is set in the
constructor and never reassigned, so it is a constant here. -/

/-- `this.regionSize = 16`. -/
def regionSize : ℕ := 16

/-- A tracked glider `{x, y, vx, vy, age, energy}` (integer position and
velocity; see `addGlider` and the movement code). -/
structure Glider where
  x : ℤ
  y : ℤ
  vx : ℤ
  vy : ℤ
  age : ℕ
  energy : ℝ

/-- A tracked static Life pattern `{x, y, width, height, energy}`. -/
structure StaticPattern where
  x : ℤ
  y : ℤ
  width : ℤ
  height : ℤ
  energy : ℝ

/-- A tracked Lenia organism `{x, y, radius, intensity, age}`. -/
structure LeniaOrganism where
  x : ℤ
  y : ℤ
  radius : ℤ
  intensity : ℝ
  age : ℕ

/-- The `CloudsSimulation` state relevant to the grid dynamics.  Purely
visual state (predation/feeding event lists, frame-time history, kernel
cache bookkeeping) is omitted: it never feeds back into the grids. -/
structure CloudsState where
  gridWidth : ℕ
  gridHeight : ℕ
  lifeGrid : ℤ → ℤ → ℤ
  leniaGrid : ℤ → ℤ → ℝ
  gliders : List Glider
  staticPatterns : List StaticPattern
  leniaOrganisms : List LeniaOrganism
  leniaRadius : ℕ
  leniaAlpha : ℝ
  leniaGrowthMu : ℝ
  leniaGrowthSigma : ℝ
  feedingRate : ℝ
  predationRate : ℝ
  feedingThreshold : ℝ
  predationThreshold : ℝ
  ecosystemPulse : ℝ
  performanceMode : Bool
  lastBassLevel : ℝ
  lastTrebleLevel : ℝ
  maxGliders : ℕ

/-- `CloudsSimulation.isValidPosition(x, y)`. -/
def isValidPosition (c : CloudsState) (x y : ℤ) : Prop :=
  0 ≤ x ∧ x < (c.gridWidth : ℤ) ∧ 0 ≤ y ∧ y < (c.gridHeight : ℤ)

instance (c : CloudsState) (x y : ℤ) : Decidable (isValidPosition c x y) :=
  inferInstanceAs (Decidable (_ ∧ _ ∧ _ ∧ _))

/-- JS `((n % m) + m) % m` as used for toroidal wrapping; JS `%` is the
truncated remainder, `Int.tmod`. -/
def jsWrap (n : ℤ) (m : ℕ) : ℤ := (Int.tmod n (m : ℤ) + (m : ℤ)).tmod (m : ℤ)

/-- `CloudsSimulation.getLife(x, y)` (the `Math.floor` on the arguments is
the identity on integer coordinates). -/
def getLife (c : CloudsState) (x y : ℤ) : ℤ :=
  if isValidPosition c x y then c.lifeGrid x y else 0

/-- `CloudsSimulation.getLenia(x, y)`. -/
noncomputable def getLenia (c : CloudsState) (x y : ℤ) : ℝ :=
  if isValidPosition c x y then c.leniaGrid x y else 0

/-- `CloudsSimulation.setLenia(x, y, value)`: clamp to `[0,1]` and write if
the position is valid. -/
noncomputable def setLenia (c : CloudsState) (x y : ℤ) (v : ℝ) : CloudsState :=
  if isValidPosition c x y then
    { c with leniaGrid := fun a b => if (a, b) = (x, y) then max 0 (min 1 v) else c.leniaGrid a b }
  else c

/-- The 8 neighbor offsets `(dx, dy)` visited by `countLifeNeighbors`
(`dy` outer from −1 to 1, `dx` inner, centre skipped). -/
def neighborOffsets8 : List (ℤ × ℤ) :=
  [(-1, -1), (0, -1), (1, -1), (-1, 0), (1, 0), (-1, 1), (0, 1), (1, 1)]

/-- `CloudsSimulation.countLifeNeighbors(x, y)`: 8-neighbor count with
toroidal wrapping `((n % size) + size) % size` and a bounds check before the
array access. -/
def countLifeNeighbors (c : CloudsState) (x y : ℤ) : ℕ :=
  (neighborOffsets8.filter fun d =>
    let wx := jsWrap (x + d.1) c.gridWidth
    let wy := jsWrap (y + d.2) c.gridHeight
    decide (0 ≤ wx ∧ wx < (c.gridWidth : ℤ) ∧ 0 ≤ wy ∧ wy < (c.gridHeight : ℤ)
      ∧ c.lifeGrid wx wy = 1)).length

/-- `CloudsSimulation.isLocallyStable(x, y)`: the loop computes wrapped
neighbor coordinates but increments `stableNeighbors` for every one of the
8 non-centre neighbors unconditionally (its own comment calls this a
simplified approach), then tests `stableNeighbors >= 6` — so the result is
always `true`. -/
def isLocallyStable (_c : CloudsState) (_x _y : ℤ) : Prop :=
  6 ≤ (neighborOffsets8.foldl (fun acc _ => acc + 1) (0 : ℕ))

instance (c : CloudsState) (x y : ℤ) : Decidable (isLocallyStable c x y) :=
  inferInstanceAs (Decidable (_ ≤ _))

/-- `CloudsSimulation.isPartOfStaticPattern(x, y)`: inside some tracked
pattern's bounding box, else fall through to `isLocallyStable`. -/
def isPartOfStaticPattern (c : CloudsState) (x y : ℤ) : Prop :=
  (∃ pat ∈ c.staticPatterns,
      pat.x ≤ x ∧ x < pat.x + pat.width ∧ pat.y ≤ y ∧ y < pat.y + pat.height)
    ∨ isLocallyStable c x y

instance (c : CloudsState) (x y : ℤ) : Decidable (isPartOfStaticPattern c x y) :=
  inferInstanceAs (Decidable (_ ∨ _))

/-- `CloudsSimulation.isPartOfGlider(x, y)`: within distance 3 of a tracked
glider. -/
noncomputable def isPartOfGlider (c : CloudsState) (x y : ℤ) : Prop :=
  ∃ g ∈ c.gliders,
    Real.sqrt (((x : ℝ) - (g.x : ℝ)) ^ 2 + ((y : ℝ) - (g.y : ℝ)) ^ 2) ≤ 3

noncomputable instance (c : CloudsState) (x y : ℤ) : Decidable (isPartOfGlider c x y) :=
  Classical.propDecidable _

/-- The Conway rule applied to one cell of the current generation
(`neighbors` from `countLifeNeighbors`): survive on 2 or 3, birth on exactly
3, else dead. -/
def conwayRuleCell (c : CloudsState) (x y : ℤ) : ℤ :=
  if c.lifeGrid x y = 1 then
    if countLifeNeighbors c x y = 2 ∨ countLifeNeighbors c x y = 3 then 1 else 0
  else
    if countLifeNeighbors c x y = 3 then 1 else 0

/-- One cell of `updateLifeGrid`'s next generation: the Conway rule result,
then the Lenia-predation check on the freshly computed value
(`if (newLifeGrid[y][x] === 1) ...`).  `rng x y` is the outcome of the
per-cell draw `Math.random() < this.feedingRate * leniaIntensity`. -/
noncomputable def lifeCellNext (c : CloudsState) (rng : ℤ → ℤ → Bool) (x y : ℤ) : ℤ :=
  if conwayRuleCell c x y = 1 ∧ getLenia c x y > c.predationThreshold
      ∧ isPartOfStaticPattern c x y ∧ rng x y = true then 0
  else conwayRuleCell c x y

/-- `CloudsSimulation.updateLifeGrid()`: the next generation computed cell
by cell into a freshly allocated zero-filled grid, then swapped in. -/
noncomputable def updateLifeGrid (c : CloudsState) (rng : ℤ → ℤ → Bool) : CloudsState :=
  { c with lifeGrid := fun x y =>
      if 0 ≤ x ∧ x < (c.gridWidth : ℤ) ∧ 0 ≤ y ∧ y < (c.gridHeight : ℤ) then
        lifeCellNext c rng x y
      else 0 }

/-- Modelled from the spec (for comparison with `updateLifeGrid`):
"standard Conway rule — survive on 2 or 3 live neighbors, birth on exactly
3, else dead — computed via 8-neighbor count with toroidal (wrap-around)
boundary topology, into a freshly allocated next-generation grid"; toroidal
indexing written with the mathematical (Euclidean) remainder. -/
def conwaySpecCount (c : CloudsState) (x y : ℤ) : ℕ :=
  (neighborOffsets8.filter fun d =>
    decide (c.lifeGrid ((x + d.1) % (c.gridWidth : ℤ)) ((y + d.2) % (c.gridHeight : ℤ))
      = 1)).length

/-- Modelled from the spec: the full next-generation grid under the
standard Conway rule with toroidal topology, a pure function of the current
generation. -/
def conwaySpecGrid (c : CloudsState) : ℤ → ℤ → ℤ := fun x y =>
  if 0 ≤ x ∧ x < (c.gridWidth : ℤ) ∧ 0 ≤ y ∧ y < (c.gridHeight : ℤ) then
    if c.lifeGrid x y = 1 then
      if conwaySpecCount c x y = 2 ∨ conwaySpecCount c x y = 3 then 1 else 0
    else
      if conwaySpecCount c x y = 3 then 1 else 0
  else 0

lemma jsWrap_eq_emod (n : ℤ) (m : ℕ) (hm : 0 < m) : jsWrap n m = n % (m : ℤ) := by
  unfold jsWrap
  have hm' : (0 : ℤ) < (m : ℤ) := by exact_mod_cast hm
  set t := Int.tmod n (m : ℤ) with ht
  have hlt : t < (m : ℤ) := Int.tmod_lt_of_pos n hm'
  have hlb : -(m : ℤ) < t := by
    rcases le_or_lt 0 n with hn | hn
    · have := Int.tmod_nonneg (m : ℤ) hn
      omega
    · have hneg : Int.tmod (-n) (m : ℤ) = -t := by
        rw [ht, Int.tmod_def, Int.tmod_def, Int.neg_tdiv]
        ring
      have h1 : 0 ≤ Int.tmod (-n) (m : ℤ) := Int.tmod_nonneg (m : ℤ) (by omega)
      have h2 : Int.tmod (-n) (m : ℤ) < (m : ℤ) := Int.tmod_lt_of_pos (-n) hm'
      omega
  have hdvd : (t - n) % (m : ℤ) = 0 := by
    have heq : t - n = (m : ℤ) * (-(n.tdiv (m : ℤ))) := by
      rw [ht, Int.tmod_def]
      ring
    rw [heq]
    exact Int.mul_emod_right _ _
  have hnn : 0 ≤ t + (m : ℤ) := by omega
  rw [Int.tmod_eq_emod hnn (le_of_lt hm')]
  have h3 : (t + (m : ℤ)) % (m : ℤ) = t % (m : ℤ) := by
    have h4 := Int.add_mul_emod_self_left (a := t) (b := (m : ℤ)) (c := 1)
    rw [mul_one] at h4
    exact h4
  rw [h3]
  exact Int.emod_eq_emod_iff_emod_sub_eq_zero.2 hdvd

lemma countLifeNeighbors_eq_spec (c : CloudsState) (hW : 0 < c.gridWidth)
    (hH : 0 < c.gridHeight) (x y : ℤ) :
    countLifeNeighbors c x y = conwaySpecCount c x y := by
  unfold countLifeNeighbors conwaySpecCount
  congr 1
  apply List.filter_congr
  intro d _
  show decide (0 ≤ jsWrap (x + d.1) c.gridWidth
      ∧ jsWrap (x + d.1) c.gridWidth < (c.gridWidth : ℤ)
      ∧ 0 ≤ jsWrap (y + d.2) c.gridHeight
      ∧ jsWrap (y + d.2) c.gridHeight < (c.gridHeight : ℤ)
      ∧ c.lifeGrid (jsWrap (x + d.1) c.gridWidth) (jsWrap (y + d.2) c.gridHeight) = 1)
    = decide (c.lifeGrid ((x + d.1) % (c.gridWidth : ℤ)) ((y + d.2) % (c.gridHeight : ℤ)) = 1)
  apply decide_eq_decide.2
  rw [jsWrap_eq_emod _ _ hW, jsWrap_eq_emod _ _ hH]
  have hW' : ((c.gridWidth : ℤ)) ≠ 0 := by positivity
  have hH' : ((c.gridHeight : ℤ)) ≠ 0 := by positivity
  constructor
  · rintro ⟨-, -, -, -, h⟩
    exact h
  · intro h
    exact ⟨Int.emod_nonneg _ hW',
      Int.emod_lt_of_pos _ (by exact_mod_cast hW),
      Int.emod_nonneg _ hH',
      Int.emod_lt_of_pos _ (by exact_mod_cast hH), h⟩

/-- C5will: the predation branch of `updateLifeGrid` is dead when no Lenia
density exceeds the predation threshold. -/
lemma lifeCellNext_eq_rule (c : CloudsState) (rng : ℤ → ℤ → Bool) (x y : ℤ)
    (hlenia : ∀ a b : ℤ, getLenia c a b ≤ c.predationThreshold) :
    lifeCellNext c rng x y = conwayRuleCell c x y := by
  unfold lifeCellNext
  rw [if_neg]
  rintro ⟨-, hgt, -, -⟩
  exact absurd hgt (not_lt.2 (hlenia x y))

/-- C5.  When no tracked static pattern exists and no cell's Lenia density
exceeds the predation threshold, `updateLifeGrid` computes exactly the
standard Conway next generation — survive on 2 or 3 live neighbors, birth
on exactly 3 — using toroidally wrapped 8-neighbor counts, into a fresh
grid that is a pure function of the current generation (in particular it is
independent of the per-cell random draws `rng`). -/
theorem life_update_pure_conway (c : CloudsState) (rng : ℤ → ℤ → Bool)
    (hW : 0 < c.gridWidth) (hH : 0 < c.gridHeight)
    (_hpat : c.staticPatterns = [])
    (hlenia : ∀ a b : ℤ, getLenia c a b ≤ c.predationThreshold) :
    (updateLifeGrid c rng).lifeGrid = conwaySpecGrid c := by
  funext x y
  show (if 0 ≤ x ∧ x < (c.gridWidth : ℤ) ∧ 0 ≤ y ∧ y < (c.gridHeight : ℤ) then
      lifeCellNext c rng x y else 0) = conwaySpecGrid c x y
  unfold conwaySpecGrid
  by_cases hv : 0 ≤ x ∧ x < (c.gridWidth : ℤ) ∧ 0 ≤ y ∧ y < (c.gridHeight : ℤ)
  · rw [if_pos hv, if_pos hv, lifeCellNext_eq_rule c rng x y hlenia]
    unfold conwayRuleCell
    rw [countLifeNeighbors_eq_spec c hW hH x y]
  · rw [if_neg hv, if_neg hv]

/-- The engine state right after the `CloudsSimulation` constructor's
parameter initialization (small-canvas dimensions 120×80), with empty grids
and no tracked patterns. -/
noncomputable def cloudsInit : CloudsState :=
  { gridWidth := 120, gridHeight := 80
    lifeGrid := fun _ _ => 0
    leniaGrid := fun _ _ => 0
    gliders := [], staticPatterns := [], leniaOrganisms := []
    leniaRadius := 13, leniaAlpha := 0.25
    leniaGrowthMu := 0.15, leniaGrowthSigma := 0.035
    feedingRate := 0.008, predationRate := 0.015
    feedingThreshold := 0.05, predationThreshold := 0.02
    ecosystemPulse := 0, performanceMode := false
    lastBassLevel := 0, lastTrebleLevel := 0
    maxGliders := 10 }

theorem life_update_pure_conway_witness :
    (0 < cloudsInit.gridWidth) ∧ cloudsInit.staticPatterns = [] ∧
    (∀ a b : ℤ, getLenia cloudsInit a b ≤ cloudsInit.predationThreshold) ∧
    (updateLifeGrid cloudsInit (fun _ _ => true)).lifeGrid = conwaySpecGrid cloudsInit := by
  have hlenia : ∀ a b : ℤ, getLenia cloudsInit a b ≤ cloudsInit.predationThreshold := by
    intro a b
    unfold getLenia cloudsInit
    split <;> norm_num
  exact ⟨by norm_num [cloudsInit], rfl, hlenia,
    life_update_pure_conway cloudsInit (fun _ _ => true) (by norm_num [cloudsInit])
      (by norm_num [cloudsInit]) rfl hlenia⟩

/-! ### Claim C7: the Lenia growth function -/

/-- `CloudsSimulation.leniaGrowthFunction(density)`.  `Date.now()` is
passed in as `now`. -/
noncomputable def leniaGrowthFunction (c : CloudsState) (density now : ℝ) : ℝ :=
  max (-0.5)
    (2.5 * Real.exp (-(((density - c.leniaGrowthMu) / c.leniaGrowthSigma)
          * ((density - c.leniaGrowthMu) / c.leniaGrowthSigma)) / 2) - 1.0
      + Real.sin (now * 0.001) * 0.02
      + (if density > 0.3 then Real.sin (density * 10) * 0.1 else 0)
      + 0.02)

/-- The growth formula exactly as claim C7 states it — with no outer
`Math.max(-0.5, ...)` floor:
`G(density) = 2.5·exp(−((density−μ)/σ)²/2) − 1.0 + timeComponent +
flowComponent + 0.02`. -/
noncomputable def claimedGrowthFormula (c : CloudsState) (density now : ℝ) : ℝ :=
  2.5 * Real.exp (-(((density - c.leniaGrowthMu) / c.leniaGrowthSigma) ^ 2) / 2) - 1.0
    + Real.sin (now * 0.001) * 0.02
    + (if density > 0.3 then Real.sin (density * 10) * 0.1 else 0)
    + 0.02

lemma claimedGrowthFormula_at_half :
    claimedGrowthFormula cloudsInit 0.5 0 < -0.5 := by
  unfold claimedGrowthFormula cloudsInit
  have harg : ((0.5 : ℝ) - 0.15) / 0.035 = 10 := by norm_num
  rw [harg]
  have hexp : Real.exp (-(((10 : ℝ)) ^ 2) / 2) ≤ 1 / 51 := by
    have h50 : (51 : ℝ) ≤ Real.exp 50 := by
      have := Real.add_one_le_exp (50 : ℝ)
      linarith
    have hpos : (0 : ℝ) < Real.exp 50 := Real.exp_pos 50
    have harg2 : (-(((10 : ℝ)) ^ 2) / 2) = -50 := by norm_num
    rw [harg2, Real.exp_neg]
    rw [inv_le_comm₀ hpos (by norm_num)]
    linarith
  have hsin5 : Real.sin ((0.5 : ℝ) * 10) * 0.1 ≤ 0.1 := by
    have := Real.sin_le_one ((0.5 : ℝ) * 10)
    nlinarith
  have hsin0 : Real.sin ((0 : ℝ) * 0.001) * 0.02 = 0 := by
    norm_num [Real.sin_zero]
  rw [if_pos (by norm_num : (0.5 : ℝ) > 0.3), hsin0]
  have hexp0 : (0 : ℝ) < Real.exp (-(((10 : ℝ)) ^ 2) / 2) := Real.exp_pos _
  nlinarith

/-- C7, counterexample.  At density 0.5 (with the constructor parameters
μ = 0.15, σ = 0.035 and time 0) the claimed formula evaluates below −0.5,
but `leniaGrowthFunction` floors its result at −0.5 with
`Math.max(-0.5, ...)`, so the function does not return the claimed
formula's value. -/
theorem growth_function_formula_refuted :
    leniaGrowthFunction cloudsInit 0.5 0 ≠ claimedGrowthFormula cloudsInit 0.5 0 := by
  have hlt := claimedGrowthFormula_at_half
  have heq : leniaGrowthFunction cloudsInit 0.5 0 = -0.5 := by
    unfold leniaGrowthFunction
    apply max_eq_left
    have hrw : ∀ a : ℝ, a * a = a ^ 2 := fun a => (pow_two a).symm
    rw [hrw]
    unfold claimedGrowthFormula at hlt
    linarith
  rw [heq]
  intro hc
  rw [← hc] at hlt
  norm_num at hlt

/-- C7, amended.  For every density, every time value and every parameter
state, the growth function returns the claimed formula *floored at −0.5*:
`G(density) = max(-0.5, 2.5·exp(−((density−μ)/σ)²/2) − 1.0 + timeComponent
+ flowComponent + 0.02)`. -/
theorem growth_function_formula_with_floor (c : CloudsState) (density now : ℝ) :
    leniaGrowthFunction c density now
      = max (-0.5) (claimedGrowthFormula c density now) := by
  unfold leniaGrowthFunction claimedGrowthFormula
  rw [pow_two]

/-! ### Claims C6 and C8: the Lenia grid updates -/

/-- `CloudsSimulation.leniaKernelFunction(distance)`: bell-shaped weight of
the normalized distance, kernel width 0.3. -/
noncomputable def leniaKernelFunction (c : CloudsState) (distance : ℝ) : ℝ :=
  if distance / (c.leniaRadius : ℝ) > 1.0 then 0
  else Real.exp (-((distance / (c.leniaRadius : ℝ)) * (distance / (c.leniaRadius : ℝ)))
    / (2 * 0.3 * 0.3))

/-- Kernel offsets `(dx, dy)` for `-r ≤ dy ≤ r` (outer), `-r ≤ dx ≤ r`
(inner). -/
def kernelOffsets (r : ℕ) : List (ℤ × ℤ) :=
  (List.range (2 * r + 1)).flatMap fun dy =>
    (List.range (2 * r + 1)).map fun dx => ((dx : ℤ) - (r : ℤ), (dy : ℤ) - (r : ℤ))

/-- `CloudsSimulation.computeLeniaKernel(centerX, centerY)`: normalized
weighted density over the toroidally wrapped neighborhood.  The JS NaN
guard on `cellValue` is vacuous in `ℝ` and omitted. -/
noncomputable def computeLeniaKernel (c : CloudsState) (cx cy : ℤ) : ℝ :=
  let acc := (kernelOffsets c.leniaRadius).foldl
    (fun (acc : ℝ × ℝ) d =>
      if Real.sqrt ((d.1 : ℝ) * (d.1 : ℝ) + (d.2 : ℝ) * (d.2 : ℝ)) > (c.leniaRadius : ℝ) then
        acc
      else
        let nx := jsWrap (cx + d.1) c.gridWidth
        let ny := jsWrap (cy + d.2) c.gridHeight
        if 0 ≤ nx ∧ nx < (c.gridWidth : ℤ) ∧ 0 ≤ ny ∧ ny < (c.gridHeight : ℤ) then
          (acc.1 + leniaKernelFunction c
              (Real.sqrt ((d.1 : ℝ) * (d.1 : ℝ) + (d.2 : ℝ) * (d.2 : ℝ))) * c.leniaGrid nx ny,
            acc.2 + leniaKernelFunction c
              (Real.sqrt ((d.1 : ℝ) * (d.1 : ℝ) + (d.2 : ℝ) * (d.2 : ℝ))))
        else acc)
    (0, 0)
  if 0 < acc.2 then acc.1 / acc.2 else 0

/-- The new value of one Lenia cell, common to the per-cell bodies of
`updateLeniaRegion` and `updateLeniaGrid` (the two loops are textually
identical in the source): growth integration, glider predation,
static-pattern feeding, then clamp to `[0,1]`.  `densityAt` abstracts
`computeLeniaKernelCached`: the cache is keyed by position only and
persists across frames, so the density actually used is *some* function of
the position (`computeLeniaKernel c` when the cache is fresh). -/
noncomputable def leniaCellValue (c : CloudsState) (densityAt : ℤ → ℤ → ℝ) (now : ℝ)
    (x y : ℤ) : ℝ :=
  let currentValue := c.leniaGrid x y
  let v1 := currentValue + c.leniaAlpha * leniaGrowthFunction c (densityAt x y) now
  let v2 := if getLife c x y = 1 ∧ isPartOfGlider c x y
    then v1 * (1.0 - c.predationRate * c.ecosystemPulse) else v1
  let v3 := if getLife c x y = 1 ∧ isPartOfStaticPattern c x y
    then v2 + c.feedingRate * currentValue else v2
  max 0 (min 1 v3)

/-- `for (let i = 0; i < n; i++) { v = start + i }` over the integers. -/
def intRange (a b : ℤ) : List ℤ :=
  (List.range (b - a).toNat).map fun (i : ℕ) => a + ((i : ℕ) : ℤ)

/-- The cells written by `updateLeniaRegion(newGrid, regionX, regionY)`:
`y` from `regionY*regionSize` to `min((regionY+1)*regionSize, gridHeight)`,
`x` likewise. -/
def regionCells (c : CloudsState) (regionX regionY : ℤ) : List (ℤ × ℤ) :=
  (intRange (regionY * (regionSize : ℤ))
      (min ((regionY + 1) * (regionSize : ℤ)) (c.gridHeight : ℤ))).flatMap fun y =>
    (intRange (regionX * (regionSize : ℤ))
        (min ((regionX + 1) * (regionSize : ℤ)) (c.gridWidth : ℤ))).map fun x => (x, y)

/-- `CloudsSimulation.updateLeniaRegion(newGrid, regionX, regionY)`. -/
noncomputable def updateLeniaRegion (c : CloudsState) (densityAt : ℤ → ℤ → ℝ) (now : ℝ)
    (newGrid : ℤ → ℤ → ℝ) (regionX regionY : ℤ) : ℤ → ℤ → ℝ :=
  (regionCells c regionX regionY).foldl
    (fun g p => fun a b => if (a, b) = p then leniaCellValue c densityAt now p.1 p.2 else g a b)
    newGrid

/-- All grid cells in row-major order (`y` outer). -/
def gridCellsRM (c : CloudsState) : List (ℤ × ℤ) :=
  (List.range c.gridHeight).flatMap fun (y : ℕ) =>
    (List.range c.gridWidth).map fun (x : ℕ) => (((x : ℕ) : ℤ), ((y : ℕ) : ℤ))

/-- JS `Set.add`: append if not already present (insertion order kept). -/
def insertRegion (l : List (ℤ × ℤ)) (r : ℤ × ℤ) : List (ℤ × ℤ) :=
  if r ∈ l then l else l ++ [r]

/-- The `(dx, dy)` offsets of the neighboring-region marking loop
(`dy` outer, from −1 to 1; the centre is re-added with a bounds check). -/
def regionNbrOffsets : List (ℤ × ℤ) :=
  [(-1, -1), (0, -1), (1, -1), (-1, 0), (0, 0), (1, 0), (-1, 1), (0, 1), (1, 1)]

/-- `Math.ceil(gridWidth / regionSize)`. -/
def numRegionsX (c : CloudsState) : ℤ := (((c.gridWidth + regionSize - 1) / regionSize : ℕ) : ℤ)

/-- `Math.ceil(gridHeight / regionSize)`. -/
def numRegionsY (c : CloudsState) : ℤ := (((c.gridHeight + regionSize - 1) / regionSize : ℕ) : ℤ)

/-- One step of the neighboring-region marking loop: add the offset region
when it is within the region bounds. -/
def markRegionStep (c : CloudsState) (p : ℤ × ℤ) (acc2 : List (ℤ × ℤ)) (d : ℤ × ℤ) :
    List (ℤ × ℤ) :=
  if 0 ≤ p.1 / (regionSize : ℤ) + d.1 ∧ p.1 / (regionSize : ℤ) + d.1 < numRegionsX c
      ∧ 0 ≤ p.2 / (regionSize : ℤ) + d.2 ∧ p.2 / (regionSize : ℤ) + d.2 < numRegionsY c then
    insertRegion acc2 (p.1 / (regionSize : ℤ) + d.1, p.2 / (regionSize : ℤ) + d.2)
  else acc2

/-- Marking performed for one grid cell: if the cell is Life-alive or has
Lenia density above 0.05, add its region and the in-bounds neighbor
regions. -/
noncomputable def markCell (c : CloudsState) (acc : List (ℤ × ℤ)) (p : ℤ × ℤ) :
    List (ℤ × ℤ) :=
  if c.lifeGrid p.1 p.2 = 1 ∨ c.leniaGrid p.1 p.2 > 0.05 then
    regionNbrOffsets.foldl (markRegionStep c p)
      (insertRegion acc (p.1 / (regionSize : ℤ), p.2 / (regionSize : ℤ)))
  else acc

/-- `CloudsSimulation.updateActiveRegions()`: every cell that is Life-alive
or has Lenia density above 0.05 marks its own region and all in-bounds
neighboring regions (a JS `Set`, modelled as an insertion-ordered
duplicate-free list). -/
noncomputable def updateActiveRegions (c : CloudsState) : List (ℤ × ℤ) :=
  (gridCellsRM c).foldl (markCell c) []

/-- `CloudsSimulation.updateLeniaGridOptimized()`: recompute active-region
tiles (at most 20 of them in performance mode) into a copy of the current
grid, then swap it in. -/
noncomputable def updateLeniaGridOptimized (c : CloudsState) (densityAt : ℤ → ℤ → ℝ)
    (now : ℝ) : CloudsState :=
  let regionsToUpdate :=
    if c.performanceMode then (updateActiveRegions c).take 20 else updateActiveRegions c
  let newGrid :=
    regionsToUpdate.foldl (fun g r => updateLeniaRegion c densityAt now g r.1 r.2)
      (fun x y => c.leniaGrid x y)
  { c with leniaGrid := newGrid }

/-- `CloudsSimulation.updateLeniaGrid()`: the full-grid update, every cell
recomputed with `computeLeniaKernel` into a fresh zero-filled grid. -/
noncomputable def updateLeniaGrid (c : CloudsState) (now : ℝ) : CloudsState :=
  { c with leniaGrid := fun x y =>
      if 0 ≤ x ∧ x < (c.gridWidth : ℤ) ∧ 0 ≤ y ∧ y < (c.gridHeight : ℤ) then
        leniaCellValue c (fun a b => computeLeniaKernel c a b) now x y
      else 0 }

lemma leniaCellValue_nonneg (c : CloudsState) (densityAt : ℤ → ℤ → ℝ) (now : ℝ)
    (x y : ℤ) : 0 ≤ leniaCellValue c densityAt now x y :=
  le_max_left 0 _

lemma leniaCellValue_le_one (c : CloudsState) (densityAt : ℤ → ℤ → ℝ) (now : ℝ)
    (x y : ℤ) : leniaCellValue c densityAt now x y ≤ 1 :=
  max_le (by norm_num) (min_le_left 1 _)

lemma foldl_write_cases (F : ℤ → ℤ → ℝ) :
    ∀ (l : List (ℤ × ℤ)) (g : ℤ → ℤ → ℝ) (x y : ℤ),
      (l.foldl (fun h p => fun a b => if (a, b) = p then F p.1 p.2 else h a b) g) x y = g x y
        ∨ ∃ a b : ℤ,
          (l.foldl (fun h p => fun a b => if (a, b) = p then F p.1 p.2 else h a b) g) x y
            = F a b := by
  intro l
  induction l with
  | nil => intro g x y; exact Or.inl rfl
  | cons p l ih =>
    intro g x y
    rw [List.foldl_cons]
    rcases ih (fun a b => if (a, b) = p then F p.1 p.2 else g a b) x y with h | h
    · rw [h]
      by_cases hp : ((x : ℤ), (y : ℤ)) = p
      · exact Or.inr ⟨p.1, p.2, by rw [if_pos hp]⟩
      · exact Or.inl (by rw [if_neg hp])
    · exact Or.inr h

lemma foldl_write_not_mem (F : ℤ → ℤ → ℝ) :
    ∀ (l : List (ℤ × ℤ)) (g : ℤ → ℤ → ℝ) (x y : ℤ), (x, y) ∉ l →
      (l.foldl (fun h p => fun a b => if (a, b) = p then F p.1 p.2 else h a b) g) x y
        = g x y := by
  intro l
  induction l with
  | nil => intro g x y _; rfl
  | cons p l ih =>
    intro g x y hnm
    rw [List.foldl_cons, ih _ x y (fun hc => hnm (List.mem_cons_of_mem _ hc))]
    rw [if_neg]
    intro hc
    exact hnm (by rw [hc]; exact List.mem_cons_self ..)

lemma updateLeniaRegion_cases (c : CloudsState) (densityAt : ℤ → ℤ → ℝ) (now : ℝ)
    (g : ℤ → ℤ → ℝ) (rx ry x y : ℤ) :
    updateLeniaRegion c densityAt now g rx ry x y = g x y
      ∨ ∃ a b : ℤ, updateLeniaRegion c densityAt now g rx ry x y
          = leniaCellValue c densityAt now a b :=
  foldl_write_cases (leniaCellValue c densityAt now) (regionCells c rx ry) g x y

lemma updateLeniaRegion_not_mem (c : CloudsState) (densityAt : ℤ → ℤ → ℝ) (now : ℝ)
    (g : ℤ → ℤ → ℝ) (rx ry x y : ℤ) (h : (x, y) ∉ regionCells c rx ry) :
    updateLeniaRegion c densityAt now g rx ry x y = g x y :=
  foldl_write_not_mem (leniaCellValue c densityAt now) (regionCells c rx ry) g x y h

lemma regions_fold_cases (c : CloudsState) (densityAt : ℤ → ℤ → ℝ) (now : ℝ) :
    ∀ (rs : List (ℤ × ℤ)) (g0 : ℤ → ℤ → ℝ) (x y : ℤ),
      (rs.foldl (fun g r => updateLeniaRegion c densityAt now g r.1 r.2) g0) x y = g0 x y
        ∨ ∃ a b : ℤ,
          (rs.foldl (fun g r => updateLeniaRegion c densityAt now g r.1 r.2) g0) x y
            = leniaCellValue c densityAt now a b := by
  intro rs
  induction rs with
  | nil => intro g0 x y; exact Or.inl rfl
  | cons r rs ih =>
    intro g0 x y
    rw [List.foldl_cons]
    rcases ih (updateLeniaRegion c densityAt now g0 r.1 r.2) x y with h | h
    · rw [h]
      exact updateLeniaRegion_cases c densityAt now g0 r.1 r.2 x y
    · exact Or.inr h

/-- C6, amended.  Starting from a grid whose Lenia values all lie in
`[0,1]` (as every grid the engine itself builds does), all Lenia values
still lie in `[0,1]` after the region-optimized update, after any
`setLenia` write, and after the full `updateLeniaGrid` — for arbitrary
density functions, growth parameters and time values.  (For truly
arbitrary input grids the claim fails: see the counterexample, where the
optimized update preserves an out-of-range value in an inactive region.) -/
theorem lenia_clamp_invariant (c : CloudsState) (densityAt : ℤ → ℤ → ℝ) (now : ℝ)
    (hpre : ∀ x y : ℤ, 0 ≤ c.leniaGrid x y ∧ c.leniaGrid x y ≤ 1) :
    (∀ x y : ℤ, 0 ≤ (updateLeniaGridOptimized c densityAt now).leniaGrid x y
        ∧ (updateLeniaGridOptimized c densityAt now).leniaGrid x y ≤ 1)
    ∧ (∀ px py : ℤ, ∀ v : ℝ, ∀ x y : ℤ,
        0 ≤ (setLenia c px py v).leniaGrid x y ∧ (setLenia c px py v).leniaGrid x y ≤ 1)
    ∧ (∀ x y : ℤ, 0 ≤ (updateLeniaGrid c now).leniaGrid x y
        ∧ (updateLeniaGrid c now).leniaGrid x y ≤ 1) := by
  refine ⟨?_, ?_, ?_⟩
  · intro x y
    have hgrid : (updateLeniaGridOptimized c densityAt now).leniaGrid
        = ((if c.performanceMode then (updateActiveRegions c).take 20
            else updateActiveRegions c).foldl
              (fun g r => updateLeniaRegion c densityAt now g r.1 r.2)
              (fun a b => c.leniaGrid a b)) := rfl
    rw [hgrid]
    have hcase := regions_fold_cases c densityAt now
      (if c.performanceMode then (updateActiveRegions c).take 20 else updateActiveRegions c)
      (fun a b => c.leniaGrid a b) x y
    rcases hcase with h | ⟨a, b, h⟩
    · rw [h]
      exact hpre x y
    · rw [h]
      exact ⟨leniaCellValue_nonneg c densityAt now a b, leniaCellValue_le_one c densityAt now a b⟩
  · intro px py v x y
    unfold setLenia
    split
    · show 0 ≤ (if ((x : ℤ), (y : ℤ)) = (px, py) then max 0 (min 1 v) else c.leniaGrid x y)
        ∧ (if ((x : ℤ), (y : ℤ)) = (px, py) then max 0 (min 1 v) else c.leniaGrid x y) ≤ 1
      by_cases hxy : ((x : ℤ), (y : ℤ)) = (px, py)
      · simp only [if_pos hxy]
        exact ⟨le_max_left 0 _, max_le (by norm_num) (min_le_left 1 _)⟩
      · simp only [if_neg hxy]
        exact hpre x y
    · exact hpre x y
  · intro x y
    show 0 ≤ (if 0 ≤ x ∧ x < (c.gridWidth : ℤ) ∧ 0 ≤ y ∧ y < (c.gridHeight : ℤ) then
          leniaCellValue c (fun a b => computeLeniaKernel c a b) now x y else 0)
      ∧ (if 0 ≤ x ∧ x < (c.gridWidth : ℤ) ∧ 0 ≤ y ∧ y < (c.gridHeight : ℤ) then
          leniaCellValue c (fun a b => computeLeniaKernel c a b) now x y else 0) ≤ 1
    split
    · exact ⟨leniaCellValue_nonneg c _ now x y, leniaCellValue_le_one c _ now x y⟩
    · norm_num

theorem lenia_clamp_invariant_witness :
    (∀ x y : ℤ, 0 ≤ cloudsInit.leniaGrid x y ∧ cloudsInit.leniaGrid x y ≤ 1) ∧
    (0 ≤ (updateLeniaGridOptimized cloudsInit (fun _ _ => 0) 0).leniaGrid 0 0
      ∧ (updateLeniaGridOptimized cloudsInit (fun _ _ => 0) 0).leniaGrid 0 0 ≤ 1) := by
  have hpre : ∀ x y : ℤ, 0 ≤ cloudsInit.leniaGrid x y ∧ cloudsInit.leniaGrid x y ≤ 1 := by
    intro x y
    show (0 : ℝ) ≤ 0 ∧ (0 : ℝ) ≤ 1
    norm_num
  exact ⟨hpre, (lenia_clamp_invariant cloudsInit (fun _ _ => 0) 0 hpre).1 0 0⟩

/-- A 1×1 grid whose single Lenia cell holds the out-of-range value −1
(and no Life cell is alive), so no region is active. -/
noncomputable def leniaNegState : CloudsState :=
  { cloudsInit with gridWidth := 1, gridHeight := 1, leniaGrid := fun _ _ => -1 }

lemma leniaNegState_active_nil : updateActiveRegions leniaNegState = [] := by
  unfold updateActiveRegions gridCellsRM
  have h1 : leniaNegState.gridHeight = 1 := rfl
  have h2 : leniaNegState.gridWidth = 1 := rfl
  rw [h1, h2]
  rw [show List.range 1 = [0] from rfl]
  rw [show ([0] : List ℕ).flatMap (fun (y : ℕ) =>
      ([0] : List ℕ).map fun (x : ℕ) => (((x : ℕ) : ℤ), ((y : ℕ) : ℤ)))
    = [((0 : ℤ), (0 : ℤ))] from rfl]
  rw [List.foldl_cons, List.foldl_nil]
  unfold markCell
  rw [if_neg]
  rintro (h | h)
  · exact absurd h (by norm_num [leniaNegState, cloudsInit])
  · exact absurd h (by norm_num [leniaNegState, cloudsInit])

/-- C6, counterexample.  For an arbitrary (out-of-range) initial grid the
claim fails: on `leniaNegState` no region is active, so the
region-optimized update copies the stored value −1 through unchanged, and
the grid holds a negative Lenia value after the update. -/
theorem lenia_clamp_arbitrary_grid_refuted :
    (updateLeniaGridOptimized leniaNegState (fun _ _ => 0) 0).leniaGrid 0 0 < 0 := by
  show ((if leniaNegState.performanceMode then (updateActiveRegions leniaNegState).take 20
      else updateActiveRegions leniaNegState).foldl
        (fun g r => updateLeniaRegion leniaNegState (fun _ _ => 0) 0 g r.1 r.2)
        (fun a b => leniaNegState.leniaGrid a b)) 0 0 < 0
  rw [show leniaNegState.performanceMode = false from rfl]
  rw [if_neg (by norm_num), leniaNegState_active_nil, List.foldl_nil]
  show (-1 : ℝ) < 0
  norm_num

/-! ### Claim C8: inactive cells retain their value -/

lemma mem_intRange {a b z : ℤ} : z ∈ intRange a b ↔ a ≤ z ∧ z < b := by
  unfold intRange
  constructor
  · intro h
    obtain ⟨i, hi, rfl⟩ := List.mem_map.1 h
    rw [List.mem_range] at hi
    omega
  · intro ⟨h1, h2⟩
    apply List.mem_map.2
    refine ⟨(z - a).toNat, List.mem_range.2 (by omega), by omega⟩

lemma mem_regionCells {c : CloudsState} {rx ry u v : ℤ} :
    (u, v) ∈ regionCells c rx ry
      ↔ (rx * (regionSize : ℤ) ≤ u
          ∧ u < min ((rx + 1) * (regionSize : ℤ)) (c.gridWidth : ℤ)
          ∧ ry * (regionSize : ℤ) ≤ v
          ∧ v < min ((ry + 1) * (regionSize : ℤ)) (c.gridHeight : ℤ)) := by
  unfold regionCells
  constructor
  · intro h
    obtain ⟨y, hy, hrest⟩ := List.mem_flatMap.1 h
    obtain ⟨x, hx, hxy⟩ := List.mem_map.1 hrest
    have hu : x = u := congrArg Prod.fst hxy
    have hv : y = v := congrArg Prod.snd hxy
    rw [hu] at hx
    rw [hv] at hy
    obtain ⟨h1, h2⟩ := mem_intRange.1 hx
    obtain ⟨h3, h4⟩ := mem_intRange.1 hy
    exact ⟨h1, h2, h3, h4⟩
  · intro ⟨h1, h2, h3, h4⟩
    apply List.mem_flatMap.2
    refine ⟨v, mem_intRange.2 ⟨h3, h4⟩, ?_⟩
    apply List.mem_map.2
    exact ⟨u, mem_intRange.2 ⟨h1, h2⟩, rfl⟩

lemma mem_gridCellsRM {c : CloudsState} {p : ℤ × ℤ} :
    p ∈ gridCellsRM c
      ↔ 0 ≤ p.1 ∧ p.1 < (c.gridWidth : ℤ) ∧ 0 ≤ p.2 ∧ p.2 < (c.gridHeight : ℤ) := by
  obtain ⟨u, v⟩ := p
  show _ ↔ 0 ≤ u ∧ u < (c.gridWidth : ℤ) ∧ 0 ≤ v ∧ v < (c.gridHeight : ℤ)
  unfold gridCellsRM
  constructor
  · intro h
    obtain ⟨y, hy, hrest⟩ := List.mem_flatMap.1 h
    obtain ⟨x, hx, hxy⟩ := List.mem_map.1 hrest
    rw [List.mem_range] at hy hx
    have hu : ((x : ℕ) : ℤ) = u := congrArg Prod.fst hxy
    have hv : ((y : ℕ) : ℤ) = v := congrArg Prod.snd hxy
    omega
  · intro ⟨h1, h2, h3, h4⟩
    apply List.mem_flatMap.2
    refine ⟨v.toNat, List.mem_range.2 (by omega), ?_⟩
    apply List.mem_map.2
    refine ⟨u.toNat, List.mem_range.2 (by omega), ?_⟩
    rw [Int.toNat_of_nonneg h1, Int.toNat_of_nonneg h3]

lemma mem_insertRegion {l : List (ℤ × ℤ)} {r z : ℤ × ℤ} :
    z ∈ insertRegion l r ↔ z ∈ l ∨ z = r := by
  unfold insertRegion
  split
  · rename_i hin
    constructor
    · exact Or.inl
    · rintro (h | h)
      · exact h
      · rw [h]; exact hin
  · rw [List.mem_append, List.mem_singleton]

lemma regionNbrOffsets_bounds :
    ∀ d ∈ regionNbrOffsets, -1 ≤ d.1 ∧ d.1 ≤ 1 ∧ -1 ≤ d.2 ∧ d.2 ≤ 1 := by
  decide

lemma markRegionStep_fold_not_mem (c : CloudsState) (p r : ℤ × ℤ) :
    ∀ (l : List (ℤ × ℤ)) (acc : List (ℤ × ℤ)), r ∉ acc →
      (∀ d ∈ l, r ≠ (p.1 / (regionSize : ℤ) + d.1, p.2 / (regionSize : ℤ) + d.2)) →
      r ∉ l.foldl (markRegionStep c p) acc := by
  intro l
  induction l with
  | nil => intro acc hacc _; exact hacc
  | cons d l ih =>
    intro acc hacc hne
    rw [List.foldl_cons]
    apply ih
    · unfold markRegionStep
      split
      · intro hc
        rcases mem_insertRegion.1 hc with h | h
        · exact hacc h
        · exact hne d (List.mem_cons_self ..) h
      · exact hacc
    · intro d' hd'
      exact hne d' (List.mem_cons_of_mem _ hd')

lemma markCell_not_mem (c : CloudsState) (r : ℤ × ℤ) (acc : List (ℤ × ℤ)) (p : ℤ × ℤ)
    (hacc : r ∉ acc)
    (hp : (c.lifeGrid p.1 p.2 = 1 ∨ c.leniaGrid p.1 p.2 > 0.05) →
      ∀ d ∈ regionNbrOffsets,
        r ≠ (p.1 / (regionSize : ℤ) + d.1, p.2 / (regionSize : ℤ) + d.2))
    (hp0 : (c.lifeGrid p.1 p.2 = 1 ∨ c.leniaGrid p.1 p.2 > 0.05) →
      r ≠ (p.1 / (regionSize : ℤ), p.2 / (regionSize : ℤ))) :
    r ∉ markCell c acc p := by
  unfold markCell
  split
  · rename_i hact
    apply markRegionStep_fold_not_mem c p r regionNbrOffsets
    · intro hc
      rcases mem_insertRegion.1 hc with h | h
      · exact hacc h
      · exact hp0 hact h
    · exact hp hact
  · exact hacc

lemma fold_markCell_not_mem (c : CloudsState) (r : ℤ × ℤ) :
    ∀ (l : List (ℤ × ℤ)) (acc : List (ℤ × ℤ)), r ∉ acc →
      (∀ p ∈ l, (c.lifeGrid p.1 p.2 = 1 ∨ c.leniaGrid p.1 p.2 > 0.05) →
        (∀ d ∈ regionNbrOffsets,
          r ≠ (p.1 / (regionSize : ℤ) + d.1, p.2 / (regionSize : ℤ) + d.2))
        ∧ r ≠ (p.1 / (regionSize : ℤ), p.2 / (regionSize : ℤ))) →
      r ∉ l.foldl (markCell c) acc := by
  intro l
  induction l with
  | nil => intro acc hacc _; exact hacc
  | cons p l ih =>
    intro acc hacc hl
    rw [List.foldl_cons]
    apply ih
    · exact markCell_not_mem c r acc p hacc
        (fun hact => (hl p (List.mem_cons_self ..) hact).1)
        (fun hact => (hl p (List.mem_cons_self ..) hact).2)
    · intro q hq
      exact hl q (List.mem_cons_of_mem _ hq)

lemma regions_fold_untouched (c : CloudsState) (densityAt : ℤ → ℤ → ℝ) (now : ℝ)
    (x y : ℤ) :
    ∀ (rs : List (ℤ × ℤ)) (g0 : ℤ → ℤ → ℝ),
      (∀ r ∈ rs, (x, y) ∉ regionCells c r.1 r.2) →
      (rs.foldl (fun g r => updateLeniaRegion c densityAt now g r.1 r.2) g0) x y
        = g0 x y := by
  intro rs
  induction rs with
  | nil => intro g0 _; rfl
  | cons r rs ih =>
    intro g0 hm
    rw [List.foldl_cons, ih _ (fun q hq => hm q (List.mem_cons_of_mem _ hq))]
    exact updateLeniaRegion_not_mem c densityAt now g0 r.1 r.2 x y
      (hm r (List.mem_cons_self ..))

/-- C8.  In the region-optimized Lenia update, every grid cell in no active
region — no cell of its 16×16 tile or of any adjacent tile is Life-alive or
has Lenia density above the activation threshold 0.05 — retains exactly its
prior Lenia value. -/
theorem lenia_inactive_cell_retained (c : CloudsState) (densityAt : ℤ → ℤ → ℝ)
    (now : ℝ) (x y : ℤ)
    (hquiet : ∀ a b : ℤ,
      0 ≤ a → a < (c.gridWidth : ℤ) → 0 ≤ b → b < (c.gridHeight : ℤ) →
      x / (regionSize : ℤ) - 1 ≤ a / (regionSize : ℤ) →
      a / (regionSize : ℤ) ≤ x / (regionSize : ℤ) + 1 →
      y / (regionSize : ℤ) - 1 ≤ b / (regionSize : ℤ) →
      b / (regionSize : ℤ) ≤ y / (regionSize : ℤ) + 1 →
      ¬(c.lifeGrid a b = 1 ∨ c.leniaGrid a b > 0.05)) :
    (updateLeniaGridOptimized c densityAt now).leniaGrid x y = c.leniaGrid x y := by
  have hnotin : (x / (regionSize : ℤ), y / (regionSize : ℤ)) ∉ updateActiveRegions c := by
    apply fold_markCell_not_mem c _ (gridCellsRM c) [] (List.not_mem_nil _)
    intro p hp hact
    obtain ⟨h1, h2, h3, h4⟩ := mem_gridCellsRM.1 hp
    constructor
    · intro d hd heq
      obtain ⟨hd1, hd2, hd3, hd4⟩ := regionNbrOffsets_bounds d hd
      have hx : x / (regionSize : ℤ) = p.1 / (regionSize : ℤ) + d.1 :=
        congrArg Prod.fst heq
      have hy : y / (regionSize : ℤ) = p.2 / (regionSize : ℤ) + d.2 :=
        congrArg Prod.snd heq
      exact hquiet p.1 p.2 h1 h2 h3 h4 (by omega) (by omega) (by omega) (by omega) hact
    · intro heq
      have hx : x / (regionSize : ℤ) = p.1 / (regionSize : ℤ) := congrArg Prod.fst heq
      have hy : y / (regionSize : ℤ) = p.2 / (regionSize : ℤ) := congrArg Prod.snd heq
      exact hquiet p.1 p.2 h1 h2 h3 h4 (by omega) (by omega) (by omega) (by omega) hact
  have hgrid : (updateLeniaGridOptimized c densityAt now).leniaGrid
      = ((if c.performanceMode then (updateActiveRegions c).take 20
          else updateActiveRegions c).foldl
            (fun g r => updateLeniaRegion c densityAt now g r.1 r.2)
            (fun a b => c.leniaGrid a b)) := rfl
  rw [hgrid]
  apply regions_fold_untouched
  intro r hr hmem
  have hrsub : r ∈ updateActiveRegions c := by
    rcases hc : c.performanceMode with hf | ht
    · rw [hc] at hr
      simp only [if_neg (by simp : ¬(false = true))] at hr
      exact hr
    · rw [hc] at hr
      simp only [if_pos rfl] at hr
      exact List.take_subset 20 _ hr
  obtain ⟨hm1, hm2, hm3, hm4⟩ := mem_regionCells.1 hmem
  have hrs : ((regionSize : ℕ) : ℤ) = 16 := rfl
  have hrx : x / (regionSize : ℤ) = r.1 := by
    have h2' : x < (r.1 + 1) * (regionSize : ℤ) := lt_of_lt_of_le hm2 (min_le_left _ _)
    have hm1' := hm1
    rw [hrs] at h2' hm1' ⊢
    omega
  have hry : y / (regionSize : ℤ) = r.2 := by
    have h4' : y < (r.2 + 1) * (regionSize : ℤ) := lt_of_lt_of_le hm4 (min_le_left _ _)
    have hm3' := hm3
    rw [hrs] at h4' hm3' ⊢
    omega
  apply hnotin
  rw [hrx, hry]
  exact hrsub

theorem lenia_inactive_cell_retained_witness :
    (∀ a b : ℤ,
      0 ≤ a → a < (cloudsInit.gridWidth : ℤ) → 0 ≤ b → b < (cloudsInit.gridHeight : ℤ) →
      (0 : ℤ) / (regionSize : ℤ) - 1 ≤ a / (regionSize : ℤ) →
      a / (regionSize : ℤ) ≤ (0 : ℤ) / (regionSize : ℤ) + 1 →
      (0 : ℤ) / (regionSize : ℤ) - 1 ≤ b / (regionSize : ℤ) →
      b / (regionSize : ℤ) ≤ (0 : ℤ) / (regionSize : ℤ) + 1 →
      ¬(cloudsInit.lifeGrid a b = 1 ∨ cloudsInit.leniaGrid a b > 0.05)) ∧
    (updateLeniaGridOptimized cloudsInit (fun _ _ => 0) 0).leniaGrid 0 0
      = cloudsInit.leniaGrid 0 0 := by
  have hquiet : ∀ a b : ℤ,
      0 ≤ a → a < (cloudsInit.gridWidth : ℤ) → 0 ≤ b → b < (cloudsInit.gridHeight : ℤ) →
      (0 : ℤ) / (regionSize : ℤ) - 1 ≤ a / (regionSize : ℤ) →
      a / (regionSize : ℤ) ≤ (0 : ℤ) / (regionSize : ℤ) + 1 →
      (0 : ℤ) / (regionSize : ℤ) - 1 ≤ b / (regionSize : ℤ) →
      b / (regionSize : ℤ) ≤ (0 : ℤ) / (regionSize : ℤ) + 1 →
      ¬(cloudsInit.lifeGrid a b = 1 ∨ cloudsInit.leniaGrid a b > 0.05) := by
    intro a b _ _ _ _ _ _ _ _
    rintro (h | h)
    · exact absurd h (by norm_num [cloudsInit])
    · exact absurd h (by norm_num [cloudsInit])
  exact ⟨hquiet,
    lenia_inactive_cell_retained cloudsInit (fun _ _ => 0) 0 0 0 hquiet⟩

/-! ### Claim C10: `triggerEarthquake`

The earthquake loops run over JS numbers starting at
`Math.max(0, epicenter - radius)` and `radius = 8 + Math.random() * 12` is
generally fractional, so the loop variables can be fractional; they are
modelled as `ℚ`.  A fractional loop variable used as an array index makes
`this.grid[y]` (or `this.grid[y][x]`) `undefined`, and the subsequent
property access throws a `TypeError`; the thrown exception is modelled as
`Except.error ()`. -/

/-- The index list of the JS loop `for (let v = start; v < stop; v++)`:
`start, start + 1, ...` while below `stop`. -/
def jsRangeQ (start stop : ℚ) : List ℚ :=
  (List.range (⌈stop - start⌉.toNat)).map fun (i : ℕ) => start + ((i : ℕ) : ℚ)

/-- JS `Math.sqrt(d2) <= r` for `d2 ≥ 0`: both sides squared, so
`0 ≤ r ∧ d2 ≤ r·r`. -/
def sqDistLe (d2 r : ℚ) : Prop := 0 ≤ r ∧ d2 ≤ r * r

instance (d2 r : ℚ) : Decidable (sqDistLe d2 r) := inferInstanceAs (Decidable (_ ∧ _))

/-- Whether `(x, y)` is a usable index pair into the grid arrays:
`this.grid[y][x]` is a cell object exactly when `y` and `x` are integers
inside the grid bounds; otherwise the lookup yields `undefined` and reading
a property of it throws. -/
def isIntIndex (s : SandGrid) (x y : ℚ) : Prop :=
  x.den = 1 ∧ y.den = 1 ∧ isValidGridPosition s x.num y.num

instance (s : SandGrid) (x y : ℚ) : Decidable (isIntIndex s x y) :=
  inferInstanceAs (Decidable (_ ∧ _ ∧ _))

/-- The body of `triggerEarthquake`'s inner loop at one `(x, y)` pair:
distance check, then `const cell = this.grid[y][x]` (which throws on a
fractional or out-of-range index), then move
`Math.floor(cell.grains * 0.5)` grains to the clamped-and-floored nearby
cell.  `off` is the pair of `(Math.random() - 0.5) * 4` draws for this
cell. -/
def quakeCellStep (ex ey : ℤ) (radius : ℚ) (off : ℚ × ℚ) (s : SandGrid)
    (y x : ℚ) : Except Unit SandGrid :=
  if sqDistLe ((x - (ex : ℚ)) * (x - (ex : ℚ)) + (y - (ey : ℚ)) * (y - (ey : ℚ))) radius then
    if isIntIndex s x y then
      if 0 < s.grains x.num y.num then
        let grainsToMove := s.grains x.num y.num / 2
        let s1 : SandGrid := { s with grains := fun a b =>
          if (a, b) = (x.num, y.num) then s.grains a b - grainsToMove else s.grains a b }
        let nearbyX := max 0 (min ((s.gridWidth : ℚ) - 1) (x + off.1))
        let nearbyY := max 0 (min ((s.gridHeight : ℚ) - 1) (y + off.2))
        if isValidGridPosition s1 ⌊nearbyX⌋ ⌊nearbyY⌋ then
          Except.ok (addGrains s1 (⌊nearbyX⌋, ⌊nearbyY⌋) grainsToMove)
        else Except.error ()
      else Except.ok s
    else Except.error ()
  else Except.ok s

/-- `SandpileSimulation.triggerEarthquake()`, grid part (the visual
`this.earthquakeEffect = 1.0` flag is recorded by the caller).  `ex`, `ey`
are the integer epicenter draws, `radius` the (generally fractional) radius
`8 + Math.random() * 12`, and `offs y x` the pair of nearby-offset draws
used at `(x, y)`. -/
def triggerEarthquakeGrid (s : SandGrid) (ex ey : ℤ) (radius : ℚ)
    (offs : ℚ → ℚ → ℚ × ℚ) : Except Unit SandGrid :=
  (jsRangeQ (max 0 ((ey : ℚ) - radius)) (min ((s.gridHeight : ℕ) : ℚ) ((ey : ℚ) + radius))).foldlM
    (fun t y =>
      (jsRangeQ (max 0 ((ex : ℚ) - radius)) (min ((s.gridWidth : ℕ) : ℚ) ((ex : ℚ) + radius))).foldlM
        (fun u x => quakeCellStep ex ey radius (offs y x) u y x) t)
    s

/-- Whether the earthquake run ended in a thrown `TypeError`. -/
def quakeThrew : Except Unit SandGrid → Bool
  | Except.error _ => true
  | Except.ok _ => false

/-- A 50×35 grid (the source's default dimensions for an 800×560 canvas
with `cellSize = 16`) holding one grain per cell. -/
def quakeGridC10 : SandGrid := ⟨50, 35, fun _ _ => 1⟩

section
attribute [local semireducible] Rat.sub Rat.add Rat.mul Rat.inv

/-- C10.  `triggerEarthquake` does not in general redistribute anything —
it crashes: with epicenter `(30, 20)` and radius `8.5` on the 50×35 grid,
the row loop starts at the fractional index `y = 11.5`, and at row
`y = 12.5`, column `x = 26.5` the distance check `√((26.5−30)² + (12.5−20)²)
= √68.5 ≤ 8.5` passes, so the code evaluates
`this.grid[12.5][26.5].grains` — a property read on `undefined` — and
throws a `TypeError` before completing the redistribution.  The
grain-conservation property is therefore not exhibited by the code on such
inputs (which occur whenever the epicenter is further than the radius from
the top and left edges); no grid state is returned at all. -/
theorem earthquake_crashes_on_fractional_index :
    quakeThrew (triggerEarthquakeGrid quakeGridC10 30 20 (17 / 2)
      (fun _ _ => (0, 0))) = true := by
  decide

end

/-! ### Claim C9: null audio input is a no-op

`updateAudioReactiveBehavior` (sandpile) and `updateAudioReactivity`
(clouds) both begin with `if (!this.audioPlayer) return;` followed by
`const audioAnalysis = this.audioPlayer.getAudioAnalysis();
if (!audioAnalysis) return;`.  The audio provider is modelled as an
`Option (Option _)`: `none` for an absent `audioPlayer`, `some none` for a
present player whose `getAudioAnalysis()` returns `null`.  The remainder of
each method is embedded in full, so the no-op statement is about the real
update. -/

/-- The fields of `getAudioAnalysis()` read by the sandpile engine. -/
structure SandAudio where
  bass : ℚ
  mid : ℚ
  treble : ℚ
  beatIntensity : ℚ

/-- The sandpile engine state touched by `updateAudioReactiveBehavior`
(per-cell colors and the avalanche particle list are purely visual and
omitted; `earthquakeEffect` only drives rendering but is kept since the
method writes it). -/
structure SandSim where
  grid : SandGrid
  sandAdditionTimer : ℚ
  sandAdditionInterval : ℚ
  sandPileLocations : List (ℤ × ℤ × ℚ)
  lastBassLevel : ℚ
  lastTrebleLevel : ℚ
  earthquakeEffect : ℚ

/-- The weighted pile selection loop of `addRandomSand`: walk the location
list accumulating weights until the draw `r` falls at or below the running
total. -/
def selectPileLocation : List (ℤ × ℤ × ℚ) → ℚ → ℚ → Option (ℤ × ℤ × ℚ)
  | [], _, _ => none
  | loc :: rest, cum, r =>
      if r ≤ cum + loc.2.2 then some loc else selectPileLocation rest (cum + loc.2.2) r

/-- One grain drop of `addRandomSand`: pick a weighted location (fallback:
the list head, which the constructor guarantees exists — the unreachable
empty-list case is a no-op here), jitter each coordinate by
`Math.floor((Math.random() - 0.5) * 2 * spreadRadius)` with
`spreadRadius = 1`, clamp into bounds and add one grain.  `r1 r2 r3` are
the three `Math.random()` draws. -/
def addRandomSandOnce (g : SandGrid) (locs : List (ℤ × ℤ × ℚ))
    (r1 r2 r3 : ℚ) : SandGrid :=
  match (selectPileLocation locs 0 r1).orElse (fun _ => locs.head?) with
  | none => g
  | some loc =>
      let x := max 0 (min ((g.gridWidth : ℤ) - 1) (loc.1 + ⌊(r2 - 1 / 2) * 2⌋))
      let y := max 0 (min ((g.gridHeight : ℤ) - 1) (loc.2.1 + ⌊(r3 - 1 / 2) * 2⌋))
      addGrains g (x, y) 1

/-- `SandpileSimulation.addRandomSand(amount)`: `amount` single-grain
drops, threading the `Math.random()` stream `rng` through counter `k`
(three draws per drop). -/
def addRandomSand (g : SandGrid) (locs : List (ℤ × ℤ × ℚ)) (amount : ℕ)
    (rng : ℕ → ℚ) (k : ℕ) : SandGrid × ℕ :=
  (List.range amount).foldl
    (fun t _ =>
      (addRandomSandOnce t.1 locs (rng t.2) (rng (t.2 + 1)) (rng (t.2 + 2)), t.2 + 3))
    (g, k)

/-- `SandpileSimulation.updateAudioReactiveBehavior(deltaTime)`.
`audioPlayer = none` models a missing provider and `some none` a `null`
`getAudioAnalysis()` result.  `rng` is the `Math.random()` stream, `offs`
the earthquake nearby-offset draws.  The per-cell `updateColor`/`update`
loop at the end is purely visual and omitted.  An earthquake can throw
(claim C10), so the result is an `Except`. -/
def updateAudioReactiveBehavior (sim : SandSim)
    (audioPlayer : Option (Option SandAudio)) (deltaTime : ℚ)
    (rng : ℕ → ℚ) (offs : ℚ → ℚ → ℚ × ℚ) : Except Unit SandSim :=
  match audioPlayer with
  | none => Except.ok sim
  | some none => Except.ok sim
  | some (some a) =>
      let bassIncrease := a.bass - sim.lastBassLevel
      let p1 : SandGrid × ℕ :=
        if bassIncrease > 1 / 20 ∧ a.bass > 1 / 2 then
          addRandomSand sim.grid sim.sandPileLocations
            ((⌊bassIncrease * 15⌋ + 2).toNat) rng 0
        else (sim.grid, 0)
      let quake : Except Unit (SandGrid × ℚ × ℕ) :=
        if a.treble - sim.lastTrebleLevel > 3 / 20 ∧ a.treble > 7 / 10 then
          let ex := ⌊rng p1.2 * ((p1.1.gridWidth : ℕ) : ℚ)⌋
          let ey := ⌊rng (p1.2 + 1) * ((p1.1.gridHeight : ℕ) : ℚ)⌋
          let radius := 8 + rng (p1.2 + 2) * 12
          match triggerEarthquakeGrid p1.1 ex ey radius offs with
          | Except.ok g2 => Except.ok (g2, 1, p1.2 + 3)
          | Except.error e => Except.error e
        else Except.ok (p1.1, sim.earthquakeEffect, p1.2)
      match quake with
      | Except.error e => Except.error e
      | Except.ok (grid2, quakeEff, k2) =>
          let newInterval : ℚ := if a.mid > 2 / 5 then 1 / 50 else 1 / 25
          let t1 := sim.sandAdditionTimer + deltaTime
          let p3 : SandGrid × ℚ × ℕ :=
            if t1 ≥ newInterval then
              let q := addRandomSand grid2 sim.sandPileLocations
                (2 + (⌊rng k2 * 2⌋).toNat) rng (k2 + 1)
              (q.1, 0, q.2)
            else (grid2, t1, k2)
          Except.ok
            { grid := p3.1
              sandAdditionTimer := p3.2.1
              sandAdditionInterval := newInterval
              sandPileLocations := sim.sandPileLocations
              lastBassLevel := a.bass
              lastTrebleLevel := a.treble
              earthquakeEffect := quakeEff }

/-- The fields of `getAudioAnalysis()` read by the clouds engine. -/
structure CloudsAudio where
  bass : ℝ
  mid : ℝ
  treble : ℝ
  beatIntensity : ℝ

/-- `CloudsSimulation.setLife(x, y, value)`: write if the position is
valid. -/
noncomputable def setLife (c : CloudsState) (x y : ℤ) (v : ℤ) : CloudsState :=
  if isValidPosition c x y then
    { c with lifeGrid := fun a b => if (a, b) = (x, y) then v else c.lifeGrid a b }
  else c

/-- `CloudsSimulation.addGlider(x, y)`: write the five glider cells and
track the glider `{x: x+1, y, vx: 1, vy: 1, age: 0, energy: 1.0}`. -/
noncomputable def addGlider (c : CloudsState) (x y : ℤ) : CloudsState :=
  if isValidPosition c x y then
    let c5 := setLife (setLife (setLife (setLife (setLife c x y 1)
      (x + 1) (y + 1) 1) (x + 2) (y - 1) 1) (x + 2) y 1) (x + 2) (y + 1) 1
    { c5 with gliders := c5.gliders ++ [⟨x + 1, y, 1, 1, 0, 1⟩] }
  else c

/-- `CloudsSimulation.createLeniaOrganism(centerX, centerY, radius,
intensity)`: for each integer offset pair within `radius` of the centre
(`dy` outer, `dx` inner, matching the JS loops), add a Gaussian bump
`intensity · exp(−d²/(2r²/4))` to the cell's value capped at `1.0` by
`Math.min`, then track the organism. -/
noncomputable def createLeniaOrganism (c : CloudsState) (cx cy radius : ℤ)
    (intensity : ℝ) : CloudsState :=
  let offsets := (intRange (-radius) (radius + 1)).flatMap fun dy =>
    (intRange (-radius) (radius + 1)).map fun dx => (dx, dy)
  let c1 := offsets.foldl
    (fun t d =>
      let distance := Real.sqrt ((d.1 : ℝ) * (d.1 : ℝ) + (d.2 : ℝ) * (d.2 : ℝ))
      if distance ≤ (radius : ℝ) then
        let x := cx + d.1
        let y := cy + d.2
        if isValidPosition t x y then
          { t with leniaGrid := fun a b =>
              if (a, b) = (x, y) then
                min 1 (t.leniaGrid x y
                  + intensity * Real.exp (-(distance * distance)
                      / (2 * (radius : ℝ) * (radius : ℝ) / 4)))
              else t.leniaGrid a b }
        else t
      else t)
    c
  { c1 with leniaOrganisms := c1.leniaOrganisms ++ [⟨cx, cy, radius, intensity, 0⟩] }

/-- `CloudsSimulation.spawnAudioReactivePatterns(bassLevel)`: when below
the glider cap, draw the spawn test (and two position draws on success),
then boost the Lenia growth parameters.  Returns the state and the
advanced random counter. -/
noncomputable def spawnAudioReactivePatterns (c : CloudsState) (bassLevel : ℝ)
    (rng : ℕ → ℝ) (k : ℕ) : CloudsState × ℕ :=
  let p :=
    if c.gliders.length < c.maxGliders then
      if rng k < bassLevel * 0.5 then
        (addGlider c (⌊rng (k + 1) * ((c.gridWidth : ℕ) - 10 : ℝ)⌋ + 5)
          (⌊rng (k + 2) * ((c.gridHeight : ℕ) - 10 : ℝ)⌋ + 5), k + 3)
      else (c, k + 1)
    else (c, k)
  ({ p.1 with leniaGrowthMu := 0.15 + bassLevel * 0.1
              leniaAlpha := 0.25 + bassLevel * 0.15 }, p.2)

/-- `CloudsSimulation.createDisturbances(trebleLevel)`:
`Math.floor(trebleLevel * 3)` new Lenia organisms at random positions with
radius `3 + Math.floor(trebleLevel * 5)` and intensity
`trebleLevel * 0.6` (two draws each). -/
noncomputable def createDisturbances (c : CloudsState) (trebleLevel : ℝ)
    (rng : ℕ → ℝ) (k : ℕ) : CloudsState × ℕ :=
  (List.range (⌊trebleLevel * 3⌋.toNat)).foldl
    (fun t _ =>
      (createLeniaOrganism t.1 ⌊rng t.2 * ((c.gridWidth : ℕ) : ℝ)⌋
        ⌊rng (t.2 + 1) * ((c.gridHeight : ℕ) : ℝ)⌋ (3 + ⌊trebleLevel * 5⌋)
        (trebleLevel * 0.6), t.2 + 2))
    (c, k)

/-- `CloudsSimulation.updateAudioReactivity(deltaTime)` (the parameter is
unused in the body).  The audio provider is an `Option (Option _)` exactly
as for the sandpile engine; `rng` is the `Math.random()` stream.
`audioAnalysis.mid || 0` is the JS or-default, the identity here since
`mid` is always a number. -/
noncomputable def updateAudioReactivity (c : CloudsState)
    (audioPlayer : Option (Option CloudsAudio)) (_deltaTime : ℝ)
    (rng : ℕ → ℝ) : CloudsState :=
  match audioPlayer with
  | none => c
  | some none => c
  | some (some a) =>
      let p1 :=
        if a.bass - c.lastBassLevel > 0.1 ∧ a.bass > 0.6 then
          spawnAudioReactivePatterns c a.bass rng 0
        else (c, 0)
      let c2 := { p1.1 with lastBassLevel := a.bass }
      let p3 :=
        if a.treble - c2.lastTrebleLevel > 0.15 ∧ a.treble > 0.7 then
          createDisturbances c2 a.treble rng p1.2
        else (c2, p1.2)
      let c4 := { p3.1 with lastTrebleLevel := a.treble }
      let c5 := { c4 with feedingRate := 0.008 * (1 + a.mid * 1.5)
                          predationRate := 0.015 * (1 + a.mid * 1.2) }
      if a.beatIntensity > 0.5 then { c5 with ecosystemPulse := a.beatIntensity }
      else { c5 with ecosystemPulse := c5.ecosystemPulse * 0.9 }

/-- C9.  When the audio provider is absent (`none`) or its per-frame query
returns `null` (`some none`), both engines' audio-reactivity updates return
immediately: the sandpile update yields `Except.ok` of the unchanged engine
state and the clouds update returns its state unchanged — grids, timers and
stored last-band levels are all intact, and no error is raised.  Null audio
is zero modulation, never an error. -/
theorem audio_null_is_neutral
    (apS : Option (Option SandAudio)) (apC : Option (Option CloudsAudio))
    (hS : apS = none ∨ apS = some none) (hC : apC = none ∨ apC = some none) :
    (∀ (sim : SandSim) (dt : ℚ) (rng : ℕ → ℚ) (offs : ℚ → ℚ → ℚ × ℚ),
        updateAudioReactiveBehavior sim apS dt rng offs = Except.ok sim)
    ∧ (∀ (c : CloudsState) (dt : ℝ) (rng : ℕ → ℝ),
        updateAudioReactivity c apC dt rng = c) := by
  constructor
  · intro sim dt rng offs
    rcases hS with h | h <;> subst h <;> rfl
  · intro c dt rng
    rcases hC with h | h <;> subst h <;> rfl

/-- A sandpile engine state over the 2×2 one-grain grid, used as a concrete
input below. -/
def sandSim0 : SandSim :=
  { grid := witnessGrid1, sandAdditionTimer := 0, sandAdditionInterval := 1 / 25
    sandPileLocations := [(0, 0, 1)], lastBassLevel := 0, lastTrebleLevel := 0
    earthquakeEffect := 0 }

theorem audio_null_is_neutral_witness :
    updateAudioReactiveBehavior sandSim0 none 0 (fun _ => 0) (fun _ _ => (0, 0))
        = Except.ok sandSim0
    ∧ updateAudioReactivity cloudsInit (some none) 0 (fun _ => 0) = cloudsInit :=
  ⟨(audio_null_is_neutral none (some none) (Or.inl rfl) (Or.inr rfl)).1
      sandSim0 0 (fun _ => 0) (fun _ _ => (0, 0)),
   (audio_null_is_neutral none (some none) (Or.inl rfl) (Or.inr rfl)).2
      cloudsInit 0 (fun _ => 0)⟩

end Hillside
